import Mathlib

/-!
Verification of the crochet schema-migration manager.

Shallow embedding of the schema IR (`src/crochet/ir/schema.py`), the
structural differ (`src/crochet/ir/diff.py`), the snapshot hasher
(`src/crochet/ir/hash.py`), the migration template generator
(`src/crochet/migrations/template.py`), the operations context
(`src/crochet/migrations/operations.py`), the engine
(`src/crochet/migrations/engine.py`) and the SQLite ledger
(`src/crochet/ledger/sqlite.py`), together with proofs and refutations of
the specified properties.
-/

namespace Crochet

/-! ### Schema IR (`crochet/ir/schema.py`)

`PropertyIR` is a frozen dataclass; `default: Any` and `choices: tuple | None`
are instantiated at `Option String` / `Option (List String)` (the values this
repository's parser produces are strings).  Python structural equality of the
dataclass is `DecidableEq` here. -/

structure PropertyIR where
  name : String
  property_type : String
  required : Bool := false
  unique_index : Bool := false
  index : Bool := false
  default : Option String := none
  choices : Option (List String) := none
  deriving DecidableEq, Repr

structure RelationshipDefIR where
  attr_name : String
  rel_type : String
  target_label : String
  direction : String
  model_kgid : Option String := none
  deriving DecidableEq, Repr

structure NodeIR where
  kgid : String
  label : String
  class_name : String
  module_path : String
  properties : List PropertyIR := []
  relationship_defs : List RelationshipDefIR := []
  deriving DecidableEq, Repr

structure RelationshipIR where
  kgid : String
  rel_type : String
  class_name : String
  module_path : String
  properties : List PropertyIR := []
  deriving DecidableEq, Repr

structure SchemaSnapshot where
  nodes : List NodeIR
  relationships : List RelationshipIR
  created_at : String := ""
  schema_hash : String := ""
  deriving DecidableEq, Repr

/-- Python `{n.kgid: n for n in self.nodes}` followed by `.get(k)`: a dict
comprehension keeps the *last* binding for a duplicated key, so the lookup
finds the last matching element. -/
def nodesByKgid (s : SchemaSnapshot) (k : String) : Option NodeIR :=
  s.nodes.reverse.find? (fun n => n.kgid == k)

/-- Python `relationships_by_kgid` dict lookup, last binding wins. -/
def relsByKgid (s : SchemaSnapshot) (k : String) : Option RelationshipIR :=
  s.relationships.reverse.find? (fun r => r.kgid == k)

/-! ### Python string comparison and `sorted`

CPython compares strings lexicographically by Unicode code point; `sorted` is
an ascending stable sort by that order.  Both are modelled directly with
executable `Bool` functions. -/

/-- Strict code-point lexicographic comparison of char lists. -/
def charListLtB : List Char → List Char → Bool
  | [], [] => false
  | [], _ :: _ => true
  | _ :: _, [] => false
  | a :: as_, b :: bs =>
      decide (a.toNat < b.toNat) || (a == b && charListLtB as_ bs)

/-- Python `str.__lt__`. -/
def strLtB (a b : String) : Bool := charListLtB a.data b.data

/-- Python `str.__le__` (for a total strict order: lt-or-eq). -/
def strLeB (a b : String) : Bool := strLtB a b || a == b

/-- Bool-based stable insertion into a le-sorted list (the element goes before
the first existing element it is `le`-related to), matching CPython's stable
`sorted`. -/
def insertLeB {α : Type} (le : α → α → Bool) (a : α) : List α → List α
  | [] => [a]
  | b :: l => if le a b then a :: b :: l else b :: insertLeB le a l

/-- Bool-based stable insertion sort, the semantics of Python `sorted`. -/
def sortLeB {α : Type} (le : α → α → Bool) : List α → List α
  | [] => []
  | a :: l => insertLeB le a (sortLeB le l)

/-- `sorted(set(old_map) | set(new_map))` in Python: the distinct keys in
ascending code-point order.  `List.dedup` keeps the first occurrence of each
key (the set), and the stable insertion sort arranges them. -/
def sortedUnion (a b : List String) : List String :=
  sortLeB strLeB ((a ++ b).dedup)

theorem mem_insertLeB {α : Type} (le : α → α → Bool) (a x : α) (l : List α) :
    x ∈ insertLeB le a l ↔ x = a ∨ x ∈ l := by
  induction l with
  | nil => simp [insertLeB]
  | cons b t ih =>
      by_cases h : le a b = true
      · simp [insertLeB, h, List.mem_cons]
      · simp [insertLeB, h, ih, List.mem_cons]
        tauto

theorem mem_sortLeB {α : Type} (le : α → α → Bool) (l : List α) (x : α) :
    x ∈ sortLeB le l ↔ x ∈ l := by
  induction l with
  | nil => simp [sortLeB]
  | cons a t ih => simp [sortLeB, mem_insertLeB, ih, List.mem_cons]

theorem insertLeB_perm {α : Type} (le : α → α → Bool) (a : α) (l : List α) :
    (insertLeB le a l).Perm (a :: l) := by
  induction l with
  | nil => simp [insertLeB]
  | cons b t ih =>
      by_cases h : le a b = true
      · simp [insertLeB, h]
      · rw [insertLeB, if_neg h]
        exact (ih.cons b).trans (List.Perm.swap a b t)

theorem sortLeB_perm {α : Type} (le : α → α → Bool) (l : List α) :
    (sortLeB le l).Perm l := by
  induction l with
  | nil => simp [sortLeB]
  | cons a t ih => exact (insertLeB_perm le a (sortLeB le t)).trans (ih.cons a)

theorem pairwise_insertLeB {α : Type} (le : α → α → Bool)
    (htot : ∀ a b, le a b = true ∨ le b a = true)
    (htrans : ∀ a b c, le a b = true → le b c = true → le a c = true)
    (a : α) (l : List α) (h : l.Pairwise (fun x y => le x y = true)) :
    (insertLeB le a l).Pairwise (fun x y => le x y = true) := by
  induction l with
  | nil => simp [insertLeB]
  | cons b t ih =>
      rcases List.pairwise_cons.mp h with ⟨hb, ht⟩
      by_cases hab : le a b = true
      · rw [insertLeB, if_pos hab]
        refine List.pairwise_cons.mpr ⟨?_, h⟩
        intro y hy
        rcases List.mem_cons.mp hy with rfl | hyt
        · exact hab
        · exact htrans a b y hab (hb y hyt)
      · rw [insertLeB, if_neg hab]
        refine List.pairwise_cons.mpr ⟨?_, ih ht⟩
        intro y hy
        rcases (mem_insertLeB le a y t).mp hy with h | hyt
        · cases h
          exact (htot _ _).resolve_left hab
        · exact hb y hyt

theorem pairwise_sortLeB {α : Type} (le : α → α → Bool)
    (htot : ∀ a b, le a b = true ∨ le b a = true)
    (htrans : ∀ a b c, le a b = true → le b c = true → le a c = true)
    (l : List α) :
    (sortLeB le l).Pairwise (fun x y => le x y = true) := by
  induction l with
  | nil => simp [sortLeB]
  | cons a t ih => exact pairwise_insertLeB le htot htrans a (sortLeB le t) ih

theorem charListLtB_total (l₁ l₂ : List Char) :
    charListLtB l₁ l₂ = true ∨ charListLtB l₂ l₁ = true ∨ l₁ = l₂ := by
  induction l₁ generalizing l₂ with
  | nil => cases l₂ <;> simp [charListLtB]
  | cons a as_ ih =>
      cases l₂ with
      | nil => simp [charListLtB]
      | cons b bs =>
          rcases Nat.lt_trichotomy a.toNat b.toNat with h | h | h
          · left; simp [charListLtB, h]
          · have hab : a = b := by
              have h2 := congrArg Char.ofNat h
              rwa [Char.ofNat_toNat, Char.ofNat_toNat] at h2
            subst hab
            rcases ih bs with h' | h' | h'
            · left; simp [charListLtB, h']
            · right; left; simp [charListLtB, h']
            · right; right; rw [h']
          · right; left; simp [charListLtB, h]

theorem charListLtB_trans (l₁ l₂ l₃ : List Char)
    (h₁ : charListLtB l₁ l₂ = true) (h₂ : charListLtB l₂ l₃ = true) :
    charListLtB l₁ l₃ = true := by
  induction l₁ generalizing l₂ l₃ with
  | nil =>
      cases l₂ with
      | nil => simp [charListLtB] at h₁
      | cons b bs =>
          cases l₃ with
          | nil => simp [charListLtB] at h₂
          | cons c cs => simp [charListLtB]
  | cons a as_ ih =>
      cases l₂ with
      | nil => simp [charListLtB] at h₁
      | cons b bs =>
          cases l₃ with
          | nil => simp [charListLtB] at h₂
          | cons c cs =>
              simp only [charListLtB, Bool.or_eq_true, Bool.and_eq_true,
                decide_eq_true_eq, beq_iff_eq] at h₁ h₂ ⊢
              rcases h₁ with h₁ | ⟨hab, h₁⟩
              · rcases h₂ with h₂ | ⟨hbc, h₂⟩
                · exact Or.inl (h₁.trans h₂)
                · exact Or.inl (hbc ▸ h₁)
              · rcases h₂ with h₂ | ⟨hbc, h₂⟩
                · exact Or.inl (hab ▸ h₂)
                · exact Or.inr ⟨hab.trans hbc, ih bs cs h₁ h₂⟩

theorem strLeB_total (a b : String) : strLeB a b = true ∨ strLeB b a = true := by
  rcases charListLtB_total a.data b.data with h | h | h
  · left; simp [strLeB, strLtB, h]
  · right; simp [strLeB, strLtB, h]
  · left
    have hab : a = b := by
      cases a; cases b
      exact congrArg String.mk h
    simp [strLeB, hab]

theorem strLeB_trans (a b c : String)
    (h₁ : strLeB a b = true) (h₂ : strLeB b c = true) : strLeB a c = true := by
  simp only [strLeB, strLtB, Bool.or_eq_true, beq_iff_eq] at h₁ h₂ ⊢
  rcases h₁ with h₁ | rfl
  · rcases h₂ with h₂ | rfl
    · exact Or.inl (charListLtB_trans _ _ _ h₁ h₂)
    · exact Or.inl h₁
  · exact h₂

theorem mem_sortedUnion {a b : List String} {k : String} :
    k ∈ sortedUnion a b ↔ k ∈ a ∨ k ∈ b := by
  unfold sortedUnion
  rw [mem_sortLeB, List.mem_dedup, List.mem_append]

/-- The sorted key union is strictly increasing in Python string order. -/
theorem pairwise_lt_sortedUnion (a b : List String) :
    List.Pairwise (fun x y => strLtB x y = true) (sortedUnion a b) := by
  have hle : List.Pairwise (fun x y => strLeB x y = true) (sortedUnion a b) :=
    pairwise_sortLeB strLeB strLeB_total strLeB_trans _
  have hnodup : (sortedUnion a b).Nodup :=
    (sortLeB_perm strLeB ((a ++ b).dedup)).symm.nodup (List.nodup_dedup _)
  refine (List.Pairwise.and hle hnodup).imp ?_
  rintro x y ⟨hxy, hne⟩
  rcases Bool.or_eq_true _ _ |>.mp hxy with h | h
  · exact h
  · exact absurd (beq_iff_eq.mp h) hne

/-! ### Schema differ (`crochet/ir/diff.py`)

Change kinds are the literal Python strings `"added"` / `"removed"` /
`"modified"`. -/

structure PropertyChange where
  kind : String
  property_name : String
  old : Option PropertyIR := none
  new : Option PropertyIR := none
  deriving DecidableEq, Repr

structure NodeChange where
  kind : String
  kgid : String
  old : Option NodeIR := none
  new : Option NodeIR := none
  property_changes : List PropertyChange := []
  label_renamed : Bool := false
  deriving DecidableEq, Repr

structure RelationshipChange where
  kind : String
  kgid : String
  old : Option RelationshipIR := none
  new : Option RelationshipIR := none
  property_changes : List PropertyChange := []
  deriving DecidableEq, Repr

structure SchemaDiff where
  node_changes : List NodeChange := []
  relationship_changes : List RelationshipChange := []
  deriving DecidableEq, Repr

/-- `SchemaDiff.has_changes`: `bool(self.node_changes or self.relationship_changes)`. -/
def SchemaDiff.has_changes (d : SchemaDiff) : Bool :=
  !d.node_changes.isEmpty || !d.relationship_changes.isEmpty

/-- Property dict lookup (`{p.name: p for p in props}.get(name)`), last wins. -/
def propByName (props : List PropertyIR) (nm : String) : Option PropertyIR :=
  props.reverse.find? (fun p => p.name == nm)

/-- The `if/elif` ladder inside `_diff_properties` for one name. -/
def propChangeAt (o n : Option PropertyIR) (nm : String) : Option PropertyChange :=
  match o, n with
  | none, some np => some { kind := "added", property_name := nm, new := some np }
  | some op, none => some { kind := "removed", property_name := nm, old := some op }
  | some op, some np =>
      if op = np then none
      else some { kind := "modified", property_name := nm, old := some op, new := some np }
  | none, none => none

/-- `_diff_properties(old_props, new_props)`. -/
def diff_properties (oldProps newProps : List PropertyIR) : List PropertyChange :=
  (sortedUnion (oldProps.map (·.name)) (newProps.map (·.name))).filterMap
    (fun nm => propChangeAt (propByName oldProps nm) (propByName newProps nm) nm)

/-- The `if/elif` ladder inside `diff_snapshots` for one node kgid:
`added` when only in new, `removed` when only in old, `modified` when both
present, structurally unequal, and there is a property change or a label
rename; otherwise nothing. -/
def nodeChangeAt (o n : Option NodeIR) (k : String) : Option NodeChange :=
  match o, n with
  | none, some nn => some { kind := "added", kgid := k, new := some nn }
  | some oo, none => some { kind := "removed", kgid := k, old := some oo }
  | some oo, some nn =>
      if oo = nn then none
      else
        let propChanges := diff_properties oo.properties nn.properties
        let labelRenamed := oo.label != nn.label
        if !propChanges.isEmpty || labelRenamed then
          some { kind := "modified", kgid := k, old := some oo, new := some nn,
                 property_changes := propChanges, label_renamed := labelRenamed }
        else none
  | none, none => none

/-- The relationship arm of `diff_snapshots` for one kgid (no label rename). -/
def relChangeAt (o n : Option RelationshipIR) (k : String) : Option RelationshipChange :=
  match o, n with
  | none, some nn => some { kind := "added", kgid := k, new := some nn }
  | some oo, none => some { kind := "removed", kgid := k, old := some oo }
  | some oo, some nn =>
      if oo = nn then none
      else
        let propChanges := diff_properties oo.properties nn.properties
        if !propChanges.isEmpty then
          some { kind := "modified", kgid := k, old := some oo, new := some nn,
                 property_changes := propChanges }
        else none
  | none, none => none

/-- `diff_snapshots(old, new)`: iterate the sorted union of kgids for nodes
and relationships independently, appending at most one change per kgid. -/
def diff_snapshots (old new : SchemaSnapshot) : SchemaDiff :=
  { node_changes :=
      (sortedUnion (old.nodes.map (·.kgid)) (new.nodes.map (·.kgid))).filterMap
        (fun k => nodeChangeAt (nodesByKgid old k) (nodesByKgid new k) k),
    relationship_changes :=
      (sortedUnion (old.relationships.map (·.kgid))
          (new.relationships.map (·.kgid))).filterMap
        (fun k => relChangeAt (relsByKgid old k) (relsByKgid new k) k) }

/-- C4: For every SchemaSnapshot s, diff_snapshots(s, s) returns a SchemaDiff
with empty node_changes and empty relationship_changes (has_changes is false). -/
theorem diff_self_no_changes (s : SchemaSnapshot) :
    (diff_snapshots s s).node_changes = []
      ∧ (diff_snapshots s s).relationship_changes = []
      ∧ (diff_snapshots s s).has_changes = false := by
  have hn : (diff_snapshots s s).node_changes = [] := by
    apply List.filterMap_eq_nil_iff.mpr
    intro k _
    cases h : nodesByKgid s k <;> simp [nodeChangeAt, h]
  have hr : (diff_snapshots s s).relationship_changes = [] := by
    apply List.filterMap_eq_nil_iff.mpr
    intro k _
    cases h : relsByKgid s k <;> simp [relChangeAt, h]
  refine ⟨hn, hr, ?_⟩
  simp [SchemaDiff.has_changes, hn, hr]

/-- Generic transport: if `f` only ever returns values whose `g`-projection is
the input key, the projections of `l.filterMap f` form a sublist of `l`. -/
theorem map_filterMap_sublist {α β : Type} (l : List α) (f : α → Option β) (g : β → α)
    (h : ∀ a b, f a = some b → g b = a) : ((l.filterMap f).map g).Sublist l := by
  induction l with
  | nil => simp
  | cons a t ih =>
    cases hfa : f a with
    | none =>
        rw [List.filterMap_cons, hfa]
        exact ih.cons a
    | some b =>
        rw [List.filterMap_cons, hfa, List.map_cons, h a b hfa]
        exact ih.cons₂ a

/-- Every change record produced by `nodeChangeAt o n k` carries `kgid = k`. -/
theorem nodeChangeAt_kgid {o n : Option NodeIR} {k : String} {c : NodeChange}
    (h : nodeChangeAt o n k = some c) : c.kgid = k := by
  cases o <;> cases n <;> simp only [nodeChangeAt] at h
  · cases h
  · cases h; rfl
  · cases h; rfl
  · split at h
    · cases h
    · split at h
      · cases h; rfl
      · cases h

/-- A node kgid is a key of `nodes_by_kgid` iff the lookup succeeds. -/
theorem nodesByKgid_isSome_iff {s : SchemaSnapshot} {k : String} :
    (nodesByKgid s k).isSome ↔ k ∈ s.nodes.map (·.kgid) := by
  unfold nodesByKgid
  rw [List.find?_isSome]
  constructor
  · rintro ⟨n, hn, hk⟩
    rw [List.mem_reverse] at hn
    exact List.mem_map.mpr ⟨n, hn, beq_iff_eq.mp hk⟩
  · rintro hk
    obtain ⟨n, hn, hkn⟩ := List.mem_map.mp hk
    exact ⟨n, List.mem_reverse.mpr hn, beq_iff_eq.mpr hkn⟩

/-- The membership/kind agreement demanded by the diff-completeness property:
an `added` entry exists only where the old lookup fails and the new one
succeeds, a `removed` entry the other way round, and a `modified` entry only
where both succeed on structurally different nodes and the entry carries a
property change or a label rename. -/
def kindMatches (old new : SchemaSnapshot) (c : NodeChange) : Prop :=
  (c.kind = "added" ∧ nodesByKgid old c.kgid = none ∧ (nodesByKgid new c.kgid).isSome)
  ∨ (c.kind = "removed" ∧ (nodesByKgid old c.kgid).isSome ∧ nodesByKgid new c.kgid = none)
  ∨ (c.kind = "modified" ∧ ∃ a b, nodesByKgid old c.kgid = some a
      ∧ nodesByKgid new c.kgid = some b ∧ a ≠ b
      ∧ (c.property_changes ≠ [] ∨ c.label_renamed = true))

/-- C5: every kgid in the union of the two node maps gives rise to at most one
NodeChange, whose kind matches its membership, `modified` entries carry a
property change or a label rename, a kgid on exactly one side always yields
its entry, and the entries appear in strictly sorted kgid order. -/
theorem diff_nodes_complete (old new : SchemaSnapshot) :
    List.Pairwise (fun x y => strLtB x y = true)
      ((diff_snapshots old new).node_changes.map (·.kgid))
    ∧ (∀ c ∈ (diff_snapshots old new).node_changes, kindMatches old new c)
    ∧ (∀ c₁ ∈ (diff_snapshots old new).node_changes,
        ∀ c₂ ∈ (diff_snapshots old new).node_changes, c₁.kgid = c₂.kgid → c₁ = c₂)
    ∧ (∀ k, nodesByKgid old k = none → (nodesByKgid new k).isSome →
        ∃ c ∈ (diff_snapshots old new).node_changes, c.kgid = k ∧ c.kind = "added")
    ∧ (∀ k, (nodesByKgid old k).isSome → nodesByKgid new k = none →
        ∃ c ∈ (diff_snapshots old new).node_changes, c.kgid = k ∧ c.kind = "removed") := by
  have hkg : ∀ k c,
      nodeChangeAt (nodesByKgid old k) (nodesByKgid new k) k = some c → c.kgid = k :=
    fun _ _ h => nodeChangeAt_kgid h
  simp only [diff_snapshots]
  refine ⟨?_, ?_, ?_, ?_, ?_⟩
  · exact List.Pairwise.sublist
      (map_filterMap_sublist
        (sortedUnion (old.nodes.map (·.kgid)) (new.nodes.map (·.kgid)))
        (fun k => nodeChangeAt (nodesByKgid old k) (nodesByKgid new k) k)
        (·.kgid) hkg)
      (pairwise_lt_sortedUnion _ _)
  · intro c hc
    obtain ⟨k, _, hfk⟩ := List.mem_filterMap.mp hc
    revert hfk
    cases ho : nodesByKgid old k <;> cases hn : nodesByKgid new k <;>
      intro hfk <;> simp only [nodeChangeAt] at hfk
    · cases hfk
    · cases hfk
      simp [kindMatches, ho, hn]
    · cases hfk
      simp [kindMatches, ho, hn]
    · rename_i oo nn
      split at hfk
      · cases hfk
      · rename_i hne
        split at hfk
        · rename_i hcond
          cases hfk
          refine Or.inr (Or.inr ⟨rfl, oo, nn, ho, hn, hne, ?_⟩)
          rcases Bool.or_eq_true _ _ |>.mp hcond with h | h
          · exact Or.inl (by simpa [List.isEmpty_iff] using h)
          · exact Or.inr h
        · cases hfk
  · intro c₁ h₁ c₂ h₂ hkk
    obtain ⟨k₁, _, hf₁⟩ := List.mem_filterMap.mp h₁
    obtain ⟨k₂, _, hf₂⟩ := List.mem_filterMap.mp h₂
    have e₁ := nodeChangeAt_kgid hf₁
    have e₂ := nodeChangeAt_kgid hf₂
    have : k₁ = k₂ := by rw [← e₁, ← e₂, hkk]
    subst this
    exact Option.some_inj.mp (hf₁.symm.trans hf₂)
  · intro k ho hs
    obtain ⟨x, hx⟩ := Option.isSome_iff_exists.mp hs
    have hmem : k ∈ sortedUnion (old.nodes.map (·.kgid)) (new.nodes.map (·.kgid)) :=
      mem_sortedUnion.mpr (Or.inr (nodesByKgid_isSome_iff.mp (by rw [hx]; rfl)))
    refine ⟨{ kind := "added", kgid := k, new := some x },
      List.mem_filterMap.mpr ⟨k, hmem, by simp [nodeChangeAt, ho, hx]⟩, rfl, rfl⟩
  · intro k hs hn
    obtain ⟨x, hx⟩ := Option.isSome_iff_exists.mp hs
    have hmem : k ∈ sortedUnion (old.nodes.map (·.kgid)) (new.nodes.map (·.kgid)) :=
      mem_sortedUnion.mpr (Or.inl (nodesByKgid_isSome_iff.mp (by rw [hx]; rfl)))
    refine ⟨{ kind := "removed", kgid := k, old := some x },
      List.mem_filterMap.mpr ⟨k, hmem, by simp [nodeChangeAt, hx, hn]⟩, rfl, rfl⟩

/-- Witness for C5: diffing the empty snapshot against one with a single
node yields that node's kgid as an `added` change. -/
theorem diff_nodes_complete_witness :
    ∃ c ∈ (diff_snapshots { nodes := [], relationships := [] }
        { nodes := [{ kgid := "p1", label := "Person", class_name := "Person",
                      module_path := "models" }], relationships := [] }).node_changes,
      c.kgid = "p1" ∧ c.kind = "added" :=
  (diff_nodes_complete _ _).2.2.2.1 "p1" rfl (by decide)

/-! ### Canonical JSON serialization (`crochet/ir/schema.py` `to_dict` fused
with `json.dumps(..., sort_keys=True, separators=(",", ":"))` from
`crochet/ir/hash.py`).

Each Python dict is modelled as its entry list; `dumpObj` performs the
key-sorting that `sort_keys=True` applies at every object, and the
`separators` argument means no incidental whitespace. -/

def hexDigit (n : Nat) : Char :=
  if n < 10 then Char.ofNat (48 + n) else Char.ofNat (87 + n % 16)

def hex4 (n : Nat) : String :=
  String.mk [hexDigit (n / 4096 % 16), hexDigit (n / 256 % 16),
    hexDigit (n / 16 % 16), hexDigit (n % 16)]

/-- Python `json.dumps` character escaping with the default
`ensure_ascii=True`: quote and backslash escaped, control characters as short
escapes or `\u00xx`, every character above `0x7e` as `\uxxxx` (astral
characters as a surrogate pair). -/
def jsonEscapeChar (c : Char) : String :=
  if c = '"' then "\\\""
  else if c = '\\' then "\\\\"
  else if c = '\n' then "\\n"
  else if c = '\r' then "\\r"
  else if c = '\t' then "\\t"
  else if c.toNat = 8 then "\\b"
  else if c.toNat = 12 then "\\f"
  else if c.toNat < 32 then "\\u" ++ hex4 c.toNat
  else if c.toNat < 127 then String.mk [c]
  else if c.toNat < 65536 then "\\u" ++ hex4 c.toNat
  else
    let v := c.toNat - 65536
    "\\u" ++ hex4 (55296 + v / 1024) ++ "\\u" ++ hex4 (56320 + v % 1024)

def jsonEscape (s : String) : String :=
  String.join (s.data.map jsonEscapeChar)

def dumpStr (s : String) : String := "\"" ++ jsonEscape s ++ "\""

def dumpBool (b : Bool) : String := if b then "true" else "false"

def dumpArr (xs : List String) : String :=
  "[" ++ String.intercalate "," xs ++ "]"

/-- Serialize a dict given as an entry list whose values are already
serialized: `sort_keys=True` sorts by the key string, separators are compact. -/
def dumpObj (kvs : List (String × String)) : String :=
  "\x7b" ++
    String.intercalate ","
      ((sortLeB (fun a b => strLeB a.1 b.1) kvs).map
        (fun kv => "\"" ++ jsonEscape kv.1 ++ "\":" ++ kv.2)) ++
  "\x7d"

/-- Python `repr` of a str value (`PropertyIR.to_dict` stores
`repr(self.default)`): single-quoted unless the value contains a single quote
and no double quote, with backslash/quote/control escapes.  Non-ASCII
printable characters are kept as-is, as in Python 3. -/
def pyReprChar (quote : Char) (c : Char) : String :=
  if c = '\\' then "\\\\"
  else if c = quote then "\\" ++ String.mk [quote]
  else if c = '\n' then "\\n"
  else if c = '\r' then "\\r"
  else if c = '\t' then "\\t"
  else if c.toNat < 32 ∨ c.toNat = 127 then "\\x" ++ String.mk [hexDigit (c.toNat / 16 % 16), hexDigit (c.toNat % 16)]
  else String.mk [c]

def pyReprStr (s : String) : String :=
  let quote := if s.data.contains '\'' && !(s.data.contains '"') then '"' else '\''
  String.mk [quote] ++ String.join (s.data.map (pyReprChar quote)) ++ String.mk [quote]

/-- Lexicographic strict comparison of `Option String` with `none` first
(Python raises on a `None` comparison; it can only be reached when two
properties tie on every earlier field, which cannot happen for the
distinct-name property sets this code sorts). -/
def optStrLtB : Option String → Option String → Bool
  | none, some _ => true
  | some a, some b => strLtB a b
  | _, _ => false

def listStrLtB : List String → List String → Bool
  | [], _ :: _ => true
  | _ :: _, [] => false
  | [], [] => false
  | a :: as_, b :: bs => strLtB a b || (a == b && listStrLtB as_ bs)

def optListStrLtB : Option (List String) → Option (List String) → Bool
  | none, some _ => true
  | some a, some b => listStrLtB a b
  | _, _ => false

/-- The `order=True` dataclass comparison on `PropertyIR`: lexicographic over
the field tuple `(name, property_type, required, unique_index, index,
default, choices)` with `False < True`. -/
def propLtB (a b : PropertyIR) : Bool :=
  strLtB a.name b.name ||
  (a.name == b.name &&
    (strLtB a.property_type b.property_type ||
    (a.property_type == b.property_type &&
      ((!a.required && b.required) ||
      (a.required == b.required &&
        ((!a.unique_index && b.unique_index) ||
        (a.unique_index == b.unique_index &&
          ((!a.index && b.index) ||
          (a.index == b.index &&
            (optStrLtB a.default b.default ||
            (a.default == b.default && optListStrLtB a.choices b.choices)))))))))))

def propLeB (a b : PropertyIR) : Bool :=
  propLtB a b || decide (a = b)

/-- `PropertyIR.to_dict()` serialized: `default`/`choices` entries only when
present, `default` stored as `repr(value)`. -/
def propertyJson (p : PropertyIR) : String :=
  dumpObj
    ([("name", dumpStr p.name),
      ("property_type", dumpStr p.property_type),
      ("required", dumpBool p.required),
      ("unique_index", dumpBool p.unique_index),
      ("index", dumpBool p.index)]
    ++ (match p.default with
        | some d => [("default", dumpStr (pyReprStr d))]
        | none => [])
    ++ (match p.choices with
        | some cs => [("choices", dumpArr (cs.map dumpStr))]
        | none => []))

/-- `RelationshipDefIR.to_dict()` serialized. -/
def relDefJson (r : RelationshipDefIR) : String :=
  dumpObj
    ([("attr_name", dumpStr r.attr_name),
      ("rel_type", dumpStr r.rel_type),
      ("target_label", dumpStr r.target_label),
      ("direction", dumpStr r.direction)]
    ++ (match r.model_kgid with
        | some m => [("model_kgid", dumpStr m)]
        | none => []))

/-- `NodeIR.to_dict()` serialized: `properties` in `sorted(self.properties)`
order, `relationship_defs` in declaration order. -/
def nodeJson (n : NodeIR) : String :=
  dumpObj
    [("kgid", dumpStr n.kgid),
     ("label", dumpStr n.label),
     ("class_name", dumpStr n.class_name),
     ("module_path", dumpStr n.module_path),
     ("properties", dumpArr ((sortLeB propLeB n.properties).map propertyJson)),
     ("relationship_defs", dumpArr (n.relationship_defs.map relDefJson))]

/-- `RelationshipIR.to_dict()` serialized. -/
def relationshipJson (r : RelationshipIR) : String :=
  dumpObj
    [("kgid", dumpStr r.kgid),
     ("rel_type", dumpStr r.rel_type),
     ("class_name", dumpStr r.class_name),
     ("module_path", dumpStr r.module_path),
     ("properties", dumpArr ((sortLeB propLeB r.properties).map propertyJson))]

/-- `SchemaSnapshot.to_dict()` as an entry list: nodes and relationships
sorted by kgid (`sorted(..., key=lambda n: n.kgid)`), plus the two volatile
fields. -/
def snapshotDictEntries (s : SchemaSnapshot) : List (String × String) :=
  [("nodes",
      dumpArr ((sortLeB (fun a b => strLeB a.kgid b.kgid) s.nodes).map nodeJson)),
   ("relationships",
      dumpArr ((sortLeB (fun a b => strLeB a.kgid b.kgid) s.relationships).map
        relationshipJson)),
   ("created_at", dumpStr s.created_at),
   ("schema_hash", dumpStr s.schema_hash)]

/-- `_canonical_json(snapshot)`: `to_dict`, `pop("created_at")`,
`pop("schema_hash")`, then `json.dumps(d, sort_keys=True,
separators=(",", ":"))`. -/
def canonical_json (s : SchemaSnapshot) : String :=
  dumpObj ((snapshotDictEntries s).filter
    (fun kv => !(kv.1 == "created_at" || kv.1 == "schema_hash")))

/-! ### SHA-256 (`hashlib.sha256(canonical.encode("utf-8")).hexdigest()`)

Implemented over `Nat` bytes/words with explicit `% 2^32`. -/

/-- UTF-8 encoding of one scalar value. -/
def utf8Char (c : Char) : List Nat :=
  let n := c.toNat
  if n < 128 then [n]
  else if n < 2048 then [192 ||| (n >>> 6), 128 ||| (n &&& 63)]
  else if n < 65536 then
    [224 ||| (n >>> 12), 128 ||| ((n >>> 6) &&& 63), 128 ||| (n &&& 63)]
  else
    [240 ||| (n >>> 18), 128 ||| ((n >>> 12) &&& 63),
     128 ||| ((n >>> 6) &&& 63), 128 ||| (n &&& 63)]

def utf8Bytes (s : String) : List Nat :=
  (s.data.map utf8Char).flatten

/-- Fuel-driven chunking; with positive chunk size and fuel at least the list
length this splits the list into consecutive chunks (also reused for the
client-side chunking of bulk operations). -/
def chunkGo {α : Type} (csize : Nat) : Nat → List α → List (List α)
  | _, [] => []
  | 0, _ :: _ => []
  | fuel + 1, a :: rest => ((a :: rest).take csize) :: chunkGo csize fuel ((a :: rest).drop csize)

def chunkList {α : Type} (csize : Nat) (l : List α) : List (List α) :=
  chunkGo csize l.length l

def rotr32 (n x : Nat) : Nat :=
  ((x >>> n) ||| (x <<< (32 - n))) % 4294967296

def shaCh (x y z : Nat) : Nat := (x &&& y) ^^^ ((x ^^^ 4294967295) &&& z)

def shaMaj (x y z : Nat) : Nat := (x &&& y) ^^^ (x &&& z) ^^^ (y &&& z)

def bsig0 (x : Nat) : Nat := rotr32 2 x ^^^ rotr32 13 x ^^^ rotr32 22 x

def bsig1 (x : Nat) : Nat := rotr32 6 x ^^^ rotr32 11 x ^^^ rotr32 25 x

def ssig0 (x : Nat) : Nat := rotr32 7 x ^^^ rotr32 18 x ^^^ (x >>> 3)

def ssig1 (x : Nat) : Nat := rotr32 17 x ^^^ rotr32 19 x ^^^ (x >>> 10)

def shaK : List Nat :=
  [1116352408, 1899447441, 3049323471, 3921009573, 961987163,
   1508970993, 2453635748, 2870763221, 3624381080, 310598401,
   607225278, 1426881987, 1925078388, 2162078206, 2614888103,
   3248222580, 3835390401, 4022224774, 264347078, 604807628,
   770255983, 1249150122, 1555081692, 1996064986, 2554220882,
   2821834349, 2952996808, 3210313671, 3336571891, 3584528711,
   113926993, 338241895, 666307205, 773529912, 1294757372,
   1396182291, 1695183700, 1986661051, 2177026350, 2456956037,
   2730485921, 2820302411, 3259730800, 3345764771, 3516065817,
   3600352804, 4094571909, 275423344, 430227734, 506948616,
   659060556, 883997877, 958139571, 1322822218, 1537002063,
   1747873779, 1955562222, 2024104815, 2227730452, 2361852424,
   2428436474, 2756734187, 3204031479, 3329325298]

def shaH0 : List Nat :=
  [1779033703, 3144134277, 1013904242, 2773480762, 1359893119,
   2600822924, 528734635, 1541459225]

def be64 (n : Nat) : List Nat :=
  [(n >>> 56) % 256, (n >>> 48) % 256, (n >>> 40) % 256, (n >>> 32) % 256,
   (n >>> 24) % 256, (n >>> 16) % 256, (n >>> 8) % 256, n % 256]

def padMessage (msg : List Nat) : List Nat :=
  let L := msg.length
  msg ++ [128] ++ List.replicate ((119 - (L % 64)) % 64) 0 ++ be64 (8 * L)

def compressBlock (h : List Nat) (block : List Nat) : List Nat :=
  let w0 := (chunkList 4 block).map (fun bs => bs.foldl (fun acc b => acc * 256 + b) 0)
  let w := (List.range 48).foldl (fun ws i =>
      let t := i + 16
      ws ++ [(ssig1 (ws.getD (t - 2) 0) + ws.getD (t - 7) 0
              + ssig0 (ws.getD (t - 15) 0) + ws.getD (t - 16) 0) % 4294967296]) w0
  let s := (List.range 64).foldl (fun (s : List Nat) t =>
      match s with
      | [a, b, c, d, e, f, g, hh] =>
          let t1 := (hh + bsig1 e + shaCh e f g + shaK.getD t 0 + w.getD t 0) % 4294967296
          let t2 := (bsig0 a + shaMaj a b c) % 4294967296
          [(t1 + t2) % 4294967296, a, b, c, (d + t1) % 4294967296, e, f, g]
      | other => other) h
  (h.zip s).map (fun p => (p.1 + p.2) % 4294967296)

def hex8 (wd : Nat) : String :=
  String.mk ((List.range 8).map (fun i => hexDigit ((wd >>> (28 - 4 * i)) % 16)))

def sha256hex (msg : List Nat) : String :=
  let blocks := chunkList 64 (padMessage msg)
  String.join ((blocks.foldl compressBlock shaH0).map hex8)

/-- `compute_hash(snapshot)`: SHA-256 hex digest of the UTF-8 encoded
canonical JSON. -/
def compute_hash (s : SchemaSnapshot) : String :=
  sha256hex (utf8Bytes (canonical_json s))

/-- `hash_snapshot(snapshot)`: copy with `schema_hash` populated. -/
def hash_snapshot (s : SchemaSnapshot) : SchemaSnapshot :=
  { s with schema_hash := compute_hash s }

/-- Popping `created_at` and `schema_hash` leaves exactly the structural
entries, so the canonical JSON mentions only `nodes` and `relationships`. -/
theorem canonical_json_eq (s : SchemaSnapshot) :
    canonical_json s = dumpObj
      [("nodes",
          dumpArr ((sortLeB (fun a b => strLeB a.kgid b.kgid) s.nodes).map nodeJson)),
       ("relationships",
          dumpArr ((sortLeB (fun a b => strLeB a.kgid b.kgid) s.relationships).map
            relationshipJson))] := rfl

/-- C3: compute_hash is a pure function of the nodes and relationships
components: snapshots agreeing on those fields hash identically whatever
their created_at and schema_hash are. -/
theorem compute_hash_pure_of_structure (s₁ s₂ : SchemaSnapshot)
    (hn : s₁.nodes = s₂.nodes) (hr : s₁.relationships = s₂.relationships) :
    compute_hash s₁ = compute_hash s₂ := by
  simp only [compute_hash, canonical_json_eq, hn, hr]

/-- Witness for C3: two structurally identical snapshots taken at different
times (and with different stored hashes) have the same digest. -/
theorem compute_hash_pure_witness :
    compute_hash
      { nodes := [{ kgid := "p1", label := "Person", class_name := "Person",
                    module_path := "models",
                    properties := [{ name := "age", property_type := "IntegerProperty" }] }],
        relationships := [],
        created_at := "2024-01-01T00:00:00+00:00", schema_hash := "" }
    = compute_hash
      { nodes := [{ kgid := "p1", label := "Person", class_name := "Person",
                    module_path := "models",
                    properties := [{ name := "age", property_type := "IntegerProperty" }] }],
        relationships := [],
        created_at := "2025-06-30T12:34:56+00:00", schema_hash := "feedbead" } :=
  compute_hash_pure_of_structure _ _ rfl rfl

/-! ### Diff descriptions (`crochet/ir/diff.py` `description` / `summary`)

The `description` properties dereference `self.new` / `self.old` without a
guard (they hold by construction for differ-produced changes; the source would
raise `AttributeError` otherwise) — the embedding totalizes those accesses
with `""`. -/

def pyBoolStr (b : Bool) : String := if b then "True" else "False"

def optNodeLabel : Option NodeIR → String
  | some n => n.label
  | none => ""

def optRelType : Option RelationshipIR → String
  | some r => r.rel_type
  | none => ""

def optPropType : Option PropertyIR → String
  | some p => p.property_type
  | none => ""

/-- `PropertyChange.description`. -/
def PropertyChange.description (pc : PropertyChange) : String :=
  if pc.kind = "added" then
    let t := optPropType pc.new
    s!"  + property '{pc.property_name}' ({t})"
  else if pc.kind = "removed" then
    s!"  - property '{pc.property_name}'"
  else
    let changes :=
      match pc.old, pc.new with
      | some po, some pn =>
          (if po.property_type ≠ pn.property_type then
            [s!"type {po.property_type} -> {pn.property_type}"] else [])
          ++ (if po.required ≠ pn.required then
            ["required=" ++ pyBoolStr pn.required] else [])
          ++ (if po.unique_index ≠ pn.unique_index then
            ["unique_index=" ++ pyBoolStr pn.unique_index] else [])
          ++ (if po.index ≠ pn.index then
            ["index=" ++ pyBoolStr pn.index] else [])
      | _, _ => []
    let detail := if changes.isEmpty then "modified" else String.intercalate ", " changes
    s!"  ~ property '{pc.property_name}' ({detail})"

/-- `NodeChange.description`. -/
def NodeChange.description (nc : NodeChange) : String :=
  if nc.kind = "added" then
    let l := optNodeLabel nc.new
    s!"+ Node '{l}' (kgid={nc.kgid})"
  else if nc.kind = "removed" then
    let l := optNodeLabel nc.old
    s!"- Node '{l}' (kgid={nc.kgid})"
  else
    let parts := [s!"~ Node kgid={nc.kgid}"]
      ++ (if nc.label_renamed then
            let ol := optNodeLabel nc.old
            let nl := optNodeLabel nc.new
            [s!"  renamed '{ol}' -> '{nl}'"]
          else [])
      ++ nc.property_changes.map PropertyChange.description
    String.intercalate "\n" parts

/-- `RelationshipChange.description`. -/
def RelationshipChange.description (rc : RelationshipChange) : String :=
  if rc.kind = "added" then
    let t := optRelType rc.new
    s!"+ Relationship '{t}' (kgid={rc.kgid})"
  else if rc.kind = "removed" then
    let t := optRelType rc.old
    s!"- Relationship '{t}' (kgid={rc.kgid})"
  else
    String.intercalate "\n"
      ([s!"~ Relationship kgid={rc.kgid}"]
        ++ rc.property_changes.map PropertyChange.description)

/-- `SchemaDiff.summary()`. -/
def SchemaDiff.summary (d : SchemaDiff) : String :=
  if d.has_changes = false then "No schema changes detected."
  else
    String.intercalate "\n"
      (d.node_changes.map NodeChange.description
        ++ d.relationship_changes.map RelationshipChange.description)

/-! ### Migration templates (`crochet/migrations/template.py`) -/

/-- Pointwise concatenation of (upgrade lines, downgrade lines) pairs; the
source appends to the two shared lists in lockstep. -/
def pcat (a b : List String × List String) : List String × List String :=
  (a.1 ++ b.1, a.2 ++ b.2)

/-- The per-property-change appends inside `generate_operations_from_diff`
for a `modified` node. -/
def genPropLines (label : String) (pc : PropertyChange) : List String × List String :=
  let nm := pc.property_name
  if pc.kind = "added" then
    pcat ([s!"ctx.add_node_property(\"{label}\", \"{nm}\")"],
          [s!"ctx.remove_node_property(\"{label}\", \"{nm}\")"])
      (match pc.new with
       | some pn =>
           pcat
             (if pn.unique_index then
                ([s!"ctx.add_unique_constraint(\"{label}\", \"{nm}\")"],
                 [s!"ctx.drop_unique_constraint(\"{label}\", \"{nm}\")"])
              else if pn.index then
                ([s!"ctx.add_index(\"{label}\", \"{nm}\")"],
                 [s!"ctx.drop_index(\"{label}\", \"{nm}\")"])
              else ([], []))
             (if pn.required then
                ([s!"ctx.add_node_property_existence_constraint(\"{label}\", \"{nm}\")"],
                 [s!"ctx.drop_node_property_existence_constraint(\"{label}\", \"{nm}\")"])
              else ([], []))
       | none => ([], []))
  else if pc.kind = "removed" then
    pcat ([s!"ctx.remove_node_property(\"{label}\", \"{nm}\")"],
          [s!"ctx.add_node_property(\"{label}\", \"{nm}\")"])
      (match pc.old with
       | some po =>
           pcat
             (if po.unique_index then
                ([s!"ctx.drop_unique_constraint(\"{label}\", \"{nm}\")"],
                 [s!"ctx.add_unique_constraint(\"{label}\", \"{nm}\")"])
              else if po.index then
                ([s!"ctx.drop_index(\"{label}\", \"{nm}\")"],
                 [s!"ctx.add_index(\"{label}\", \"{nm}\")"])
              else ([], []))
             (if po.required then
                ([s!"ctx.drop_node_property_existence_constraint(\"{label}\", \"{nm}\")"],
                 [s!"ctx.add_node_property_existence_constraint(\"{label}\", \"{nm}\")"])
              else ([], []))
       | none => ([], []))
  else if pc.kind = "modified" then
    match pc.old, pc.new with
    | some po, some pn =>
        pcat
          (if po.unique_index ≠ pn.unique_index then
             (if pn.unique_index then
                ([s!"ctx.add_unique_constraint(\"{label}\", \"{nm}\")"],
                 [s!"ctx.drop_unique_constraint(\"{label}\", \"{nm}\")"])
              else
                ([s!"ctx.drop_unique_constraint(\"{label}\", \"{nm}\")"],
                 [s!"ctx.add_unique_constraint(\"{label}\", \"{nm}\")"]))
           else ([], []))
          (pcat
            (if po.index ≠ pn.index then
               (if pn.index then
                  ([s!"ctx.add_index(\"{label}\", \"{nm}\")"],
                   [s!"ctx.drop_index(\"{label}\", \"{nm}\")"])
                else
                  ([s!"ctx.drop_index(\"{label}\", \"{nm}\")"],
                   [s!"ctx.add_index(\"{label}\", \"{nm}\")"]))
             else ([], []))
            (if po.required ≠ pn.required then
               (if pn.required then
                  ([s!"ctx.add_node_property_existence_constraint(\"{label}\", \"{nm}\")"],
                   [s!"ctx.drop_node_property_existence_constraint(\"{label}\", \"{nm}\")"])
                else
                  ([s!"ctx.drop_node_property_existence_constraint(\"{label}\", \"{nm}\")"],
                   [s!"ctx.add_node_property_existence_constraint(\"{label}\", \"{nm}\")"]))
             else ([], [])))
    | _, _ => ([], [])
  else ([], [])

/-- The per-node-change appends inside `generate_operations_from_diff`. -/
def genNodeLines (nc : NodeChange) : List String × List String :=
  if nc.kind = "added" then
    let l := optNodeLabel nc.new
    ([s!"# TODO: Handle new node '{l}' (kgid={nc.kgid})"],
     [s!"# TODO: Clean up node '{l}' (kgid={nc.kgid})"])
  else if nc.kind = "removed" then
    let l := optNodeLabel nc.old
    ([s!"# TODO: Handle removed node '{l}' (kgid={nc.kgid})"],
     [s!"# TODO: Restore node '{l}' (kgid={nc.kgid})"])
  else if nc.kind = "modified" then
    let label := match nc.new with
      | some n => n.label
      | none => optNodeLabel nc.old
    let ren :=
      match nc.label_renamed, nc.old, nc.new with
      | true, some o, some n =>
          ([s!"ctx.rename_label(\"{o.label}\", \"{n.label}\")"],
           [s!"ctx.rename_label(\"{n.label}\", \"{o.label}\")"])
      | _, _, _ => ([], [])
    pcat ren ((nc.property_changes.map (genPropLines label)).foldl pcat ([], []))
  else ([], [])

/-- The per-relationship-change appends: TODO comments only; `modified`
relationship property changes append to the upgrade list only (as in the
source). -/
def genRelLines (rc : RelationshipChange) : List String × List String :=
  if rc.kind = "added" then
    let t := optRelType rc.new
    ([s!"# TODO: Handle new relationship '{t}' (kgid={rc.kgid})"],
     [s!"# TODO: Clean up relationship '{t}' (kgid={rc.kgid})"])
  else if rc.kind = "removed" then
    let t := optRelType rc.old
    ([s!"# TODO: Handle removed relationship '{t}' (kgid={rc.kgid})"],
     [s!"# TODO: Restore relationship '{t}' (kgid={rc.kgid})"])
  else if rc.kind = "modified" then
    let t := optRelType rc.new
    let t := if (rc.new).isSome then t else optRelType rc.old
    ((rc.property_changes.map (fun pc =>
        if pc.kind = "added" then
          [s!"# TODO: Add property \"{pc.property_name}\" to relationship {t}"]
        else if pc.kind = "removed" then
          [s!"# TODO: Remove property \"{pc.property_name}\" from relationship {t}"]
        else [])).flatten,
     [])
  else ([], [])

/-- The (upgrade, downgrade) line lists accumulated by
`generate_operations_from_diff`. -/
def generate_operations_lines (d : SchemaDiff) : List String × List String :=
  pcat ((d.node_changes.map genNodeLines).foldl pcat ([], []))
       ((d.relationship_changes.map genRelLines).foldl pcat ([], []))

/-- The final code-string formatting of `generate_operations_from_diff`. -/
def formatOpLines (lines : List String) : String :=
  if lines.isEmpty then "    pass"
  else "    " ++ String.intercalate "\n    " lines

/-- `generate_operations_from_diff(diff) -> (upgrade_code, downgrade_code)`. -/
def generate_operations_from_diff (d : SchemaDiff) : String × String :=
  (formatOpLines (generate_operations_lines d).1,
   formatOpLines (generate_operations_lines d).2)

/-- Split a character list at newlines. -/
def splitNlChars : List Char → List (List Char)
  | [] => [[]]
  | c :: rest =>
      if c = '\n' then [] :: splitNlChars rest
      else
        match splitNlChars rest with
        | [] => [[c]]
        | seg :: segs => (c :: seg) :: segs

/-- Python `str.splitlines()` for strings whose only line break is `\n`
(which is all this template code produces): empty string gives `[]`, a
trailing newline does not produce a trailing empty line. -/
def pySplitlines (s : String) : List String :=
  if s.data.isEmpty then []
  else
    let parts := (splitNlChars s.data).map String.mk
    if s.data.getLast? = some '\n' then parts.dropLast else parts

def diffCommentHeaderStr : String := "    # Detected schema changes:\n"

/-- The comment block `render_migration` builds from a diff summary. -/
def commentBlock (summary : String) : String :=
  diffCommentHeaderStr
    ++ String.join ((pySplitlines summary).map (fun ln => "    # " ++ ln ++ "\n"))

/-- The no-diff body selection of `render_migration` (`elif diff_summary:` /
`else:`): the comment fallback shares one string for both bodies. -/
def noDiffBodies (diffSummary : String) : String × String :=
  if diffSummary ≠ "" then
    let body := commentBlock diffSummary ++ "    pass"
    (body, body)
  else ("    pass", "    pass")

/-- Body selection of `render_migration(..., diff_summary, diff)`: operations
are generated only when the `diff` argument itself is provided and has
changes; otherwise the summary (if any) becomes comments over a `pass` body. -/
def renderBodies (diffSummary : String) (d : Option SchemaDiff) : String × String :=
  match d with
  | some diff =>
      if diff.has_changes then
        let u := (generate_operations_from_diff diff).1
        let dn := (generate_operations_from_diff diff).2
        if diffSummary ≠ "" then
          let hdr := commentBlock diffSummary
          (hdr ++ "\n" ++ u, hdr ++ "\n" ++ dn)
        else (u, dn)
      else noDiffBodies diffSummary
  | none => noDiffBodies diffSummary

def pyReprOptStr : Option String → String
  | none => "None"
  | some s => pyReprStr s

/-- `render_migration(...)` — the full file text, with the
`datetime.now(timezone.utc).isoformat()` stamp passed in as `now`. -/
def render_migration (revision_id : String) (parent_id : Option String)
    (description : String) (schema_hash : String) (rollback_safe : Bool)
    (diff_summary : String) (diff : Option SchemaDiff) (now : String) : String :=
  let bodies := renderBodies diff_summary diff
  "\"\"\"\n" ++ description ++ "\n\nRevision: " ++ revision_id
    ++ "\nParent:   " ++ (parent_id.getD "None")
    ++ "\nCreated:  " ++ now
    ++ "\nSchema:   " ++ schema_hash
    ++ "\n\"\"\"\n\nfrom crochet.migrations.operations import MigrationContext\n\n"
    ++ "# -- Migration metadata --------------------------------------------------\n\n"
    ++ "revision_id = \"" ++ revision_id ++ "\"\n"
    ++ "parent_id = " ++ pyReprOptStr parent_id ++ "\n"
    ++ "schema_hash = \"" ++ schema_hash ++ "\"\n"
    ++ "rollback_safe = " ++ pyBoolStr rollback_safe ++ "\n\n\n"
    ++ "def upgrade(ctx: MigrationContext) -> None:\n    \"\"\"Apply this migration.\"\"\"\n"
    ++ bodies.1
    ++ "\n\n\ndef downgrade(ctx: MigrationContext) -> None:\n    \"\"\"Revert this migration.\"\"\"\n"
    ++ bodies.2 ++ "\n"

/-- The diff summary `MigrationEngine.create_migration` computes (engine.py
lines 163-171): the summary of the diff against the previous stored snapshot
when it has changes, else the empty string. -/
def createPathDiffSummary (prev curr : SchemaSnapshot) : String :=
  let d := diff_snapshots prev curr
  if d.has_changes then d.summary else ""

/-- The upgrade/downgrade bodies of the migration file
`create_migration` generates: the engine calls `render_migration` with
`diff_summary` only — the `diff` keyword is never passed, so the
operations-generating branch is unreachable from `create_migration`. -/
def createPathBodies (prev curr : SchemaSnapshot) : String × String :=
  renderBodies (createPathDiffSummary prev curr) none

/-! Concrete scenario from the spec: node `p1` gains a unique `email`
property. -/

def agePropIR : PropertyIR := { name := "age", property_type := "IntegerProperty" }

def emailPropIR : PropertyIR :=
  { name := "email", property_type := "StringProperty", unique_index := true }

def scenarioOld : SchemaSnapshot :=
  { nodes := [{ kgid := "p1", label := "Person", class_name := "Person",
                module_path := "models", properties := [agePropIR] }],
    relationships := [] }

def scenarioNew : SchemaSnapshot :=
  { nodes := [{ kgid := "p1", label := "Person", class_name := "Person",
                module_path := "models", properties := [agePropIR, emailPropIR] }],
    relationships := [] }

/-- Substring test (`pat in s` for strings). -/
def segInList (p : List Char) : List Char → Bool
  | [] => p.isEmpty
  | c :: t => p.isPrefixOf (c :: t) || segInList p t

def strContains (s pat : String) : Bool := segInList pat.data s.data

/-- C1 counterexample: in the spec's own scenario (node `p1` gains a unique
`email` property) the diff has changes, yet the upgrade body of the file
`create_migration` generates contains no Operations call at all — the engine
passes only `diff_summary` to `render_migration`, never `diff`, so the body
is comment lines over `pass`. -/
theorem create_migration_scenario_no_operation_calls :
    (diff_snapshots scenarioOld scenarioNew).has_changes = true
    ∧ strContains (createPathBodies scenarioOld scenarioNew).1
        "ctx.add_node_property" = false
    ∧ strContains (createPathBodies scenarioOld scenarioNew).1 "ctx." = false
    ∧ (createPathBodies scenarioOld scenarioNew).2
        = (createPathBodies scenarioOld scenarioNew).1 := by
  refine ⟨rfl, ?_, ?_, rfl⟩ <;> decide

/-- C1 (amended): `create_migration` renders the diff only as `# `-comment
lines above a `pass` body, with the downgrade body identical to the upgrade
body; the translation of property/label changes into ordered Operations
calls (add-property then add-unique-constraint for the scenario, with the
structurally inverse call for each line in the downgrade body) is produced
by `render_migration` only when its `diff` argument is supplied, and a
no-change render yields the `pass` no-op bodies. -/
theorem create_migration_bodies_amended :
    createPathBodies scenarioOld scenarioNew =
      (commentBlock ((diff_snapshots scenarioOld scenarioNew).summary) ++ "    pass",
       commentBlock ((diff_snapshots scenarioOld scenarioNew).summary) ++ "    pass")
    ∧ generate_operations_lines (diff_snapshots scenarioOld scenarioNew) =
        (["ctx.add_node_property(\"Person\", \"email\")",
          "ctx.add_unique_constraint(\"Person\", \"email\")"],
         ["ctx.remove_node_property(\"Person\", \"email\")",
          "ctx.drop_unique_constraint(\"Person\", \"email\")"])
    ∧ renderBodies ((diff_snapshots scenarioOld scenarioNew).summary)
        (some (diff_snapshots scenarioOld scenarioNew)) =
        (commentBlock ((diff_snapshots scenarioOld scenarioNew).summary) ++ "\n"
          ++ "    ctx.add_node_property(\"Person\", \"email\")\n"
          ++ "    ctx.add_unique_constraint(\"Person\", \"email\")",
         commentBlock ((diff_snapshots scenarioOld scenarioNew).summary) ++ "\n"
          ++ "    ctx.remove_node_property(\"Person\", \"email\")\n"
          ++ "    ctx.drop_unique_constraint(\"Person\", \"email\")")
    ∧ renderBodies "" none = ("    pass", "    pass") := by
  refine ⟨?_, ?_, ?_, rfl⟩ <;> decide

/-! ### Migration engine (`crochet/migrations/engine.py`)

A loaded `MigrationFile` exposes its module's metadata attributes; the
`upgradeOk` / `downgradeOk` flags model whether invoking the module's
`upgrade(ctx)` / `downgrade(ctx)` body returns normally or raises. -/

structure MigrationFile where
  revision_id : String
  parent_id : Option String
  schema_hash : String
  rollback_safe : Bool := true
  upgradeOk : Bool := true
  downgradeOk : Bool := true
  deriving DecidableEq, Repr

/-- `by_id = {m.revision_id: m for m in migrations}` lookup, last wins. -/
def lookupById (ms : List MigrationFile) (rid : String) : Option MigrationFile :=
  ms.reverse.find? (fun m => m.revision_id == rid)

/-- The recursive `walk` closure of `_sort_by_chain`: marks the migration
visited, recurses into its parent when `m.parent_id` is truthy and present in
`by_id`, then appends the migration itself.  Fuel (`migrations.length + 1` at
the call sites) bounds the recursion; the visited set cuts cycles first. -/
def walkParents (ms : List MigrationFile) :
    Nat → MigrationFile → List String × List MigrationFile →
      List String × List MigrationFile
  | 0, _, acc => acc
  | fuel + 1, m, (visited, ordered) =>
      if visited.contains m.revision_id then (visited, ordered)
      else
        let visited' := m.revision_id :: visited
        let next :=
          match m.parent_id with
          | some p =>
              if p ≠ "" then
                match lookupById ms p with
                | some pm => walkParents ms fuel pm (visited', ordered)
                | none => (visited', ordered)
              else (visited', ordered)
          | none => (visited', ordered)
        (next.1, next.2 ++ [m])

/-- `MigrationEngine._sort_by_chain`: roots are the migrations whose
`parent_id` is `None`; with no roots but nonempty input, fall back to a sort
by `revision_id`; otherwise walk from each root and append every migration
not reached, in input order. -/
def sort_by_chain (migrations : List MigrationFile) : List MigrationFile :=
  let roots := migrations.filter (fun m => m.parent_id.isNone)
  if roots.isEmpty && !migrations.isEmpty then
    sortLeB (fun a b => strLeB a.revision_id b.revision_id) migrations
  else
    let st := roots.foldl
      (fun acc r => walkParents migrations (migrations.length + 1) r acc) ([], [])
    st.2 ++ migrations.filter (fun m => !(st.1.contains m.revision_id))

/-- `MigrationEngine.discover_migrations`, modelled on the already-loaded
migration files listed in filename-sorted order (the
`sorted(migrations_dir.glob("*.py"))` scan, the `_`-prefix skip and the
module loading are file I/O; every element here stands for a loaded module
that has a `revision_id`). -/
def discover_migrations (filesInNameOrder : List MigrationFile) : List MigrationFile :=
  sort_by_chain filesInNameOrder

/-! C2 failing input: a well-formed three-migration chain
`0001_root → z1 → a2` whose filenames (`<revision_id>.py`) sort as
`0001_root, a2, z1`. -/

def migRoot : MigrationFile :=
  { revision_id := "0001_root", parent_id := none, schema_hash := "" }

def migZ : MigrationFile :=
  { revision_id := "z1", parent_id := some "0001_root", schema_hash := "" }

def migA : MigrationFile :=
  { revision_id := "a2", parent_id := some "z1", schema_hash := "" }

/-- C2: the chain walk of `_sort_by_chain` only ever ascends `parent_id`
links and is seeded exclusively with roots (which have no parent), so it
never follows children: discovery returns the roots followed by the
remaining migrations in filename order, **not** in chain order.  For the
well-formed chain `0001_root → z1 → a2` stored in files sorting as
`[0001_root, a2, z1]`, discovery returns `[0001_root, a2, z1]` instead of
the chain order `[0001_root, z1, a2]` (contradicting the function's own
docstring, "Sort migrations by their parent chain (topological order)":
`a2` is placed before its parent `z1`). -/
theorem discover_migrations_not_chain_order :
    (discover_migrations [migRoot, migA, migZ]).map (·.revision_id)
      = ["0001_root", "a2", "z1"]
    ∧ ["0001_root", "a2", "z1"] ≠ ["0001_root", "z1", "a2"] := by
  exact ⟨by decide, by decide⟩

/-! #### Upgrade / downgrade execution

The ledger is reduced to what the engine observes: the list of applied
revision ids in application order.  `executed` records which migration
bodies were invoked during the call, in order. -/

inductive EngineErr where
  | migrationFailed (revision_id : String)
  | rollbackUnsafeErr (revision_id : String)
  | ledgerDuplicate (revision_id : String)
  deriving DecidableEq, Repr

structure RunOutcome where
  result : Except EngineErr (List String)
  ledger : List String
  executed : List String
  deriving Repr

def ledgerHas (L : List String) (rid : String) : Bool := L.contains rid

/-- Python `if target and mf.revision_id == target:` — note the truthiness
check: an empty-string target never matches. -/
def targMatch (t : Option String) (rid : String) : Bool :=
  match t with
  | some s => !(s == "") && rid == s
  | none => false

structure UpState where
  ledger : List String
  executed : List String
  applied_ids : List String
  deriving DecidableEq, Repr

/-- `MigrationEngine._apply_one`: invoke the upgrade body (recorded in
`executed`); a raising body becomes a MigrationError naming the revision;
when not dry-run, `record_migration` runs (its duplicate error propagates). -/
def apply_one (dry : Bool) (m : MigrationFile) (st : UpState) :
    UpState × Option EngineErr :=
  let st := { st with executed := st.executed ++ [m.revision_id] }
  if !m.upgradeOk then (st, some (.migrationFailed m.revision_id))
  else if dry then (st, none)
  else if st.ledger.contains m.revision_id then
    (st, some (.ledgerDuplicate m.revision_id))
  else ({ st with ledger := st.ledger ++ [m.revision_id] }, none)

/-- The `for mf in pending:` loop of `MigrationEngine.upgrade`, with the
duplicated target check before and after `_apply_one` as in the source. -/
def upgradeLoop (t : Option String) (dry : Bool) :
    List MigrationFile → UpState → RunOutcome
  | [], st => ⟨.ok st.applied_ids, st.ledger, st.executed⟩
  | m :: rest, st =>
      if targMatch t m.revision_id then
        match apply_one dry m st with
        | (st', some e) => ⟨.error e, st'.ledger, st'.executed⟩
        | (st', none) =>
            ⟨.ok (st'.applied_ids ++ [m.revision_id]), st'.ledger, st'.executed⟩
      else
        match apply_one dry m st with
        | (st', some e) => ⟨.error e, st'.ledger, st'.executed⟩
        | (st', none) =>
            let st'' := { st' with applied_ids := st'.applied_ids ++ [m.revision_id] }
            if targMatch t m.revision_id then
              ⟨.ok st''.applied_ids, st''.ledger, st''.executed⟩
            else upgradeLoop t dry rest st''

/-- `MigrationEngine.pending_migrations`. -/
def pending_migrations (disc : List MigrationFile) (L : List String) :
    List MigrationFile :=
  disc.filter (fun m => !(ledgerHas L m.revision_id))

/-- `MigrationEngine.applied_migrations`. -/
def applied_migrations (disc : List MigrationFile) (L : List String) :
    List MigrationFile :=
  disc.filter (fun m => ledgerHas L m.revision_id)

/-- `MigrationEngine.upgrade(target, driver, dry_run)` over the discovered
migration list `disc` and ledger state `L`. -/
def upgrade (disc : List MigrationFile) (L : List String) (t : Option String)
    (dry : Bool) : RunOutcome :=
  let pending := pending_migrations disc L
  if pending.isEmpty then ⟨.ok [], L, []⟩
  else upgradeLoop t dry pending ⟨L, [], []⟩

structure DownState where
  ledger : List String
  executed : List String
  reverted : List String
  deriving DecidableEq, Repr

/-- The `for mf in applied:` loop of `MigrationEngine.downgrade`: stop
*before* the target; an unsafe migration raises before its body runs or the
ledger is touched; otherwise run the body (a raising body becomes a
MigrationError), remove from the ledger unless dry-run, record the reverted
id, and stop after one step when no target was given. -/
def downgradeLoop (t : Option String) (dry : Bool) :
    List MigrationFile → DownState → RunOutcome
  | [], st => ⟨.ok st.reverted, st.ledger, st.executed⟩
  | m :: rest, st =>
      if targMatch t m.revision_id then ⟨.ok st.reverted, st.ledger, st.executed⟩
      else if !m.rollback_safe then
        ⟨.error (.rollbackUnsafeErr m.revision_id), st.ledger, st.executed⟩
      else
        let st₁ := { st with executed := st.executed ++ [m.revision_id] }
        if !m.downgradeOk then
          ⟨.error (.migrationFailed m.revision_id), st₁.ledger, st₁.executed⟩
        else
          let st₂ := if dry then st₁
            else { st₁ with
                   ledger := st₁.ledger.filter (fun r => !(r == m.revision_id)) }
          let st₃ := { st₂ with reverted := st₂.reverted ++ [m.revision_id] }
          if t.isNone then ⟨.ok st₃.reverted, st₃.ledger, st₃.executed⟩
          else downgradeLoop t dry rest st₃

/-- `MigrationEngine.downgrade(target, driver, dry_run)`. -/
def downgrade (disc : List MigrationFile) (L : List String) (t : Option String)
    (dry : Bool) : RunOutcome :=
  let applied := (applied_migrations disc L).reverse
  if applied.isEmpty then ⟨.ok [], L, []⟩
  else downgradeLoop t dry applied ⟨L, [], []⟩

theorem apply_one_dry_ledger (m : MigrationFile) (st : UpState) :
    (apply_one true m st).1.ledger = st.ledger := by
  by_cases h : m.upgradeOk <;> simp [apply_one, h]

theorem upgradeLoop_dry_ledger (t : Option String) :
    ∀ (w : List MigrationFile) (st : UpState),
      (upgradeLoop t true w st).ledger = st.ledger := by
  intro w
  induction w with
  | nil => intro st; rfl
  | cons m rest ih =>
      intro st
      rw [upgradeLoop]
      rcases hap : apply_one true m st with ⟨st', e⟩
      have hled : st'.ledger = st.ledger := by
        have h := apply_one_dry_ledger m st
        rw [hap] at h
        exact h
      by_cases htm : targMatch t m.revision_id = true <;>
        cases e <;> simp [htm, hap, hled, ih]

theorem downgradeLoop_dry_ledger (t : Option String) :
    ∀ (w : List MigrationFile) (st : DownState),
      (downgradeLoop t true w st).ledger = st.ledger := by
  intro w
  induction w with
  | nil => intro st; rfl
  | cons m rest ih =>
      intro st
      rw [downgradeLoop]
      by_cases h1 : targMatch t m.revision_id = true
      · simp [h1]
      · by_cases h2 : m.rollback_safe <;> by_cases h3 : m.downgradeOk <;>
          by_cases h4 : t.isNone <;> simp [h1, h2, h3, h4, ih]

/-- C8: with `dry_run=True` neither upgrade nor downgrade mutates the
ledger's applied set — `record_migration` / `remove_migration` are never
reached, so the set of applied migrations is the same before and after. -/
theorem dry_run_preserves_ledger (disc : List MigrationFile) (L : List String)
    (t : Option String) :
    (upgrade disc L t true).ledger = L
      ∧ (downgrade disc L t true).ledger = L := by
  constructor
  · by_cases h : (pending_migrations disc L).isEmpty = true <;>
      simp [upgrade, h, upgradeLoop_dry_ledger]
  · by_cases h : ((applied_migrations disc L).reverse).isEmpty = true <;>
      simp [downgrade, h, downgradeLoop_dry_ledger]

/-- The walk prefix `downgrade` actually reverts: everything strictly before
the (exclusive) target, or just the head when no target was given. -/
def downgradePrefix (disc : List MigrationFile) (L : List String)
    (t : Option String) : List MigrationFile :=
  match t with
  | none => ((applied_migrations disc L).reverse).take 1
  | some s => ((applied_migrations disc L).reverse).takeWhile
      (fun m => !(m.revision_id == s))

theorem downgradeLoop_none (dry : Bool) (w : List MigrationFile) (st : DownState)
    (hsafe : ∀ m ∈ w.take 1, m.rollback_safe = true ∧ m.downgradeOk = true) :
    (downgradeLoop none dry w st).result
      = .ok (st.reverted ++ (w.take 1).map (·.revision_id)) := by
  cases w with
  | nil => simp [downgradeLoop]
  | cons m rest =>
      obtain ⟨hs, ho⟩ := hsafe m (by simp)
      by_cases hd : dry <;> simp [downgradeLoop, targMatch, hs, ho, hd]

theorem downgradeLoop_target (dry : Bool) (s : String) (hs : s ≠ "") :
    ∀ (w : List MigrationFile) (st : DownState),
    (∀ m ∈ w.takeWhile (fun m => !(m.revision_id == s)),
        m.rollback_safe = true ∧ m.downgradeOk = true) →
    (downgradeLoop (some s) dry w st).result
      = .ok (st.reverted
          ++ (w.takeWhile (fun m => !(m.revision_id == s))).map (·.revision_id)) := by
  intro w
  induction w with
  | nil => intro st _; simp [downgradeLoop]
  | cons m rest ih =>
      intro st hsafe
      by_cases hm : m.revision_id = s
      · have htm : targMatch (some s) m.revision_id = true := by
          simp [targMatch, hm, hs]
        have htw0 : (m :: rest).takeWhile (fun m => !(m.revision_id == s)) = [] := by
          simp [List.takeWhile_cons, hm]
        simp [downgradeLoop, htm, htw0]
      · have htm : targMatch (some s) m.revision_id = false := by
          simp [targMatch, hm]
        have htw : (m :: rest).takeWhile (fun m => !(m.revision_id == s))
            = m :: rest.takeWhile (fun m => !(m.revision_id == s)) := by
          simp [List.takeWhile_cons, hm]
        rw [htw] at hsafe
        obtain ⟨hsm, hom⟩ := hsafe m (List.mem_cons_self m _)
        have hrest := fun x hx => hsafe x (List.mem_cons_of_mem m hx)
        rw [downgradeLoop]
        cases dry
        · simp [htm, hsm, hom, htw]
          rw [ih _ hrest]
          simp
        · simp [htm, hsm, hom, htw]
          rw [ih _ hrest]
          simp

/-- C7: downgrade walks the applied migrations in reverse chain order,
stops before the (exclusive) target or after exactly one step when no target
is given (hence the empty result when nothing is applied), and returns the
ordered list of reverted revision ids. -/
theorem downgrade_walk_semantics (disc : List MigrationFile) (L : List String)
    (t : Option String) (dry : Bool) (ht : t ≠ some "")
    (hsafe : ∀ m ∈ downgradePrefix disc L t,
        m.rollback_safe = true ∧ m.downgradeOk = true) :
    (downgrade disc L t dry).result
      = .ok ((downgradePrefix disc L t).map (·.revision_id)) := by
  unfold downgrade
  by_cases hemp : ((applied_migrations disc L).reverse).isEmpty = true
  · have hnil : (applied_migrations disc L).reverse = [] :=
      List.isEmpty_iff.mp hemp
    cases t <;> simp [hemp, downgradePrefix, hnil]
  · cases t with
    | none =>
        have h := downgradeLoop_none dry ((applied_migrations disc L).reverse)
          ⟨L, [], []⟩ hsafe
        simpa [hemp, downgradePrefix] using h
    | some s =>
        have hs : s ≠ "" := fun h => ht (by rw [h])
        have h := downgradeLoop_target dry s hs
          ((applied_migrations disc L).reverse) ⟨L, [], []⟩ hsafe
        simpa [hemp, downgradePrefix] using h

/-- Witness for C7 at a concrete input: two applied migrations, no target —
exactly the head of the reversed chain is reverted. -/
theorem downgrade_walk_semantics_witness :
    (downgrade [migRoot, migZ] ["0001_root", "z1"] none false).result
      = .ok ((downgradePrefix [migRoot, migZ] ["0001_root", "z1"] none).map
          (·.revision_id)) :=
  downgrade_walk_semantics [migRoot, migZ] ["0001_root", "z1"] none false
    (by decide) (by decide)

theorem foldl_remove_mem (dry : Bool) (pre : List MigrationFile) :
    ∀ (L : List String) (r : String), r ∈ L → r ∉ pre.map (·.revision_id) →
    r ∈ pre.foldl (fun lg x => if dry then lg
        else lg.filter (fun q => !(q == x.revision_id))) L := by
  induction pre with
  | nil => intro L r h _; exact h
  | cons x pr ih =>
      intro L r hr hnot
      rw [List.foldl_cons]
      refine ih _ r ?_ (fun hmem => hnot (by simp [hmem]))
      by_cases hd : dry
      · simpa [hd] using hr
      · have hne : r ≠ x.revision_id := fun he => hnot (by simp [he])
        simp [hd, List.mem_filter, hr, hne]

theorem downgradeLoop_unsafe (t : Option String) (dry : Bool) :
    ∀ (pre : List MigrationFile) (m : MigrationFile) (suf : List MigrationFile)
      (st : DownState),
    (∀ x ∈ pre, targMatch t x.revision_id = false ∧ x.rollback_safe = true
        ∧ x.downgradeOk = true) →
    targMatch t m.revision_id = false →
    m.rollback_safe = false →
    (t = none → pre = []) →
    downgradeLoop t dry (pre ++ m :: suf) st =
      ⟨.error (.rollbackUnsafeErr m.revision_id),
       pre.foldl (fun lg x => if dry then lg
          else lg.filter (fun q => !(q == x.revision_id))) st.ledger,
       st.executed ++ pre.map (·.revision_id)⟩ := by
  intro pre
  induction pre with
  | nil =>
      intro m suf st _ hmt hm _
      rw [List.nil_append, downgradeLoop]
      simp [hmt, hm]
  | cons x pr ih =>
      intro m suf st hpre hmt hm hnone
      have htn : t ≠ none := fun h => absurd (hnone h) (by simp)
      obtain ⟨hxt, hxs, hxo⟩ := hpre x (List.mem_cons_self x _)
      have hiN : t.isNone = false := by
        cases t
        · exact absurd rfl htn
        · rfl
      have hpre' := fun y hy => hpre y (List.mem_cons_of_mem x hy)
      have hnone' : t = none → pr = [] := fun h => False.elim (htn h)
      rw [List.cons_append, downgradeLoop]
      cases dry
      · simp [hxt, hxs, hxo, hiN]
        rw [ih m suf _ hpre' hmt hm hnone']
        simp [List.foldl_cons]
      · simp [hxt, hxs, hxo, hiN]
        rw [ih m suf _ hpre' hmt hm hnone']
        simp [List.foldl_cons]

/-- C6: when the downgrade walk reaches its first rollback-unsafe migration,
the call fails with a rollback-unsafe error naming that revision, that
migration's downgrade body is never invoked, the migration is still recorded
as applied afterwards, and in the no-target (single-step) case the ledger is
completely untouched. -/
theorem downgrade_unsafe_blocks (disc : List MigrationFile) (L : List String)
    (t : Option String) (dry : Bool) (pre : List MigrationFile)
    (m : MigrationFile) (suf : List MigrationFile)
    (hw : (applied_migrations disc L).reverse = pre ++ m :: suf)
    (hpre : ∀ x ∈ pre, targMatch t x.revision_id = false
        ∧ x.rollback_safe = true ∧ x.downgradeOk = true)
    (hmt : targMatch t m.revision_id = false)
    (hm : m.rollback_safe = false)
    (hnone : t = none → pre = [])
    (hdist : m.revision_id ∉ pre.map (·.revision_id)) :
    (downgrade disc L t dry).result = .error (.rollbackUnsafeErr m.revision_id)
    ∧ m.revision_id ∉ (downgrade disc L t dry).executed
    ∧ m.revision_id ∈ (downgrade disc L t dry).ledger
    ∧ (t = none → (downgrade disc L t dry).ledger = L) := by
  have hmL : m.revision_id ∈ L := by
    have hmem : m ∈ (applied_migrations disc L).reverse := by
      rw [hw]; simp
    rw [List.mem_reverse] at hmem
    have hp := List.of_mem_filter hmem
    simpa [ledgerHas] using hp
  have hne : ((applied_migrations disc L).reverse).isEmpty = false := by
    rw [hw]; simp
  have hloop := downgradeLoop_unsafe t dry pre m suf ⟨L, [], []⟩ hpre hmt hm hnone
  have hdg : downgrade disc L t dry =
      ⟨.error (.rollbackUnsafeErr m.revision_id),
       pre.foldl (fun lg x => if dry then lg
          else lg.filter (fun q => !(q == x.revision_id))) L,
       pre.map (·.revision_id)⟩ := by
    unfold downgrade
    rw [hw] at hne ⊢
    simp only [hne, Bool.false_eq_true, if_false]
    rw [hloop]
    simp
  rw [hdg]
  refine ⟨rfl, by simpa using hdist, ?_, ?_⟩
  · exact foldl_remove_mem dry pre L m.revision_id hmL hdist
  · intro h
    rw [hnone h]
    rfl

def migUnsafe : MigrationFile :=
  { revision_id := "u2", parent_id := some "0001_root", schema_hash := "",
    rollback_safe := false }

/-- Witness for C6 at a concrete input: the head of the reversed applied
chain is rollback-unsafe; downgrade errors, runs no body, and leaves the
ledger untouched. -/
theorem downgrade_unsafe_blocks_witness :
    (downgrade [migRoot, migUnsafe] ["0001_root", "u2"] none false).result
        = .error (.rollbackUnsafeErr migUnsafe.revision_id)
    ∧ migUnsafe.revision_id
        ∉ (downgrade [migRoot, migUnsafe] ["0001_root", "u2"] none false).executed
    ∧ migUnsafe.revision_id
        ∈ (downgrade [migRoot, migUnsafe] ["0001_root", "u2"] none false).ledger
    ∧ (none = (none : Option String) →
        (downgrade [migRoot, migUnsafe] ["0001_root", "u2"] none false).ledger
          = ["0001_root", "u2"]) := by
  have h := downgrade_unsafe_blocks [migRoot, migUnsafe] ["0001_root", "u2"]
    none false [] migUnsafe [migRoot] (by decide) (by intro x hx; cases hx)
    (by decide) (by decide) (fun _ => rfl) (by decide)
  exact ⟨h.1, h.2.1, h.2.2.1, fun _ => h.2.2.2 rfl⟩

/-! ### SQLite ledger (`crochet/ledger/sqlite.py`)

The `applied_migrations` table is its row list in insertion (= `applied_at`)
order.  Each mutating call commits immediately; a primary-key violation
surfaces as `sqlite3.IntegrityError` and is re-raised as a `LedgerError`
naming the colliding revision, leaving the table unchanged. -/

structure AppliedMigration where
  revision_id : String
  parent_id : Option String
  description : String
  schema_hash : String
  applied_at : String
  rollback_safe : Bool
  deriving DecidableEq, Repr

inductive LedgerErr where
  | duplicate (key : String)
  deriving DecidableEq, Repr

/-- `Ledger.record_migration`: INSERT with `revision_id` as primary key.  The
server-assigned UTC timestamp (`datetime.now(timezone.utc).isoformat()`
taken inside the call) is the `now` parameter.  A duplicate key raises and
the table is unchanged; otherwise the stored row is committed and returned. -/
def record_migration (table : List AppliedMigration) (now : String)
    (revision_id : String) (parent_id : Option String) (description : String)
    (schema_hash : String) (rollback_safe : Bool) :
    Except LedgerErr AppliedMigration × List AppliedMigration :=
  if table.any (fun r => r.revision_id == revision_id) then
    (.error (.duplicate revision_id), table)
  else
    let row : AppliedMigration :=
      { revision_id := revision_id, parent_id := parent_id,
        description := description, schema_hash := schema_hash,
        applied_at := now, rollback_safe := rollback_safe }
    (.ok row, table ++ [row])

/-- `Ledger.remove_migration`: idempotent DELETE by revision id. -/
def remove_migration (table : List AppliedMigration) (revision_id : String) :
    List AppliedMigration :=
  table.filter (fun r => !(r.revision_id == revision_id))

/-- `Ledger.is_applied`: `SELECT 1 ... WHERE revision_id = ?` non-empty. -/
def is_applied (table : List AppliedMigration) (revision_id : String) : Bool :=
  table.any (fun r => r.revision_id == revision_id)

/-- C9: recording an already-recorded revision fails with a duplicate-kind
ledger error naming the key and leaves the table unchanged; `is_applied` is
true before and after the failed second call; the successful first call
returns the stored row carrying the server-assigned timestamp. -/
theorem record_migration_duplicate_semantics
    (table : List AppliedMigration) (now₁ now₂ rid : String)
    (p₁ p₂ : Option String) (d₁ d₂ sh₁ sh₂ : String) (rs₁ rs₂ : Bool)
    (hfree : is_applied table rid = false) :
    (record_migration table now₁ rid p₁ d₁ sh₁ rs₁).1
        = .ok { revision_id := rid, parent_id := p₁, description := d₁,
                schema_hash := sh₁, applied_at := now₁, rollback_safe := rs₁ }
    ∧ is_applied (record_migration table now₁ rid p₁ d₁ sh₁ rs₁).2 rid = true
    ∧ (record_migration (record_migration table now₁ rid p₁ d₁ sh₁ rs₁).2
          now₂ rid p₂ d₂ sh₂ rs₂).1 = .error (.duplicate rid)
    ∧ (record_migration (record_migration table now₁ rid p₁ d₁ sh₁ rs₁).2
          now₂ rid p₂ d₂ sh₂ rs₂).2
        = (record_migration table now₁ rid p₁ d₁ sh₁ rs₁).2
    ∧ is_applied (record_migration (record_migration table now₁ rid p₁ d₁ sh₁ rs₁).2
          now₂ rid p₂ d₂ sh₂ rs₂).2 rid = true := by
  have hany : table.any (fun r => r.revision_id == rid) = false := hfree
  refine ⟨?_, ?_, ?_, ?_, ?_⟩ <;>
    simp [record_migration, is_applied, hany]

/-- Witness for C9 on the empty ledger with revision `m1`. -/
theorem record_migration_duplicate_semantics_witness :
    (record_migration [] "t1" "m1" none "x" "h1" true).1
        = .ok { revision_id := "m1", parent_id := none, description := "x",
                schema_hash := "h1", applied_at := "t1", rollback_safe := true }
    ∧ is_applied (record_migration [] "t1" "m1" none "x" "h1" true).2 "m1" = true
    ∧ (record_migration (record_migration [] "t1" "m1" none "x" "h1" true).2
          "t2" "m1" none "y" "h2" false).1 = .error (.duplicate "m1")
    ∧ (record_migration (record_migration [] "t1" "m1" none "x" "h1" true).2
          "t2" "m1" none "y" "h2" false).2
        = (record_migration [] "t1" "m1" none "x" "h1" true).2
    ∧ is_applied (record_migration (record_migration [] "t1" "m1" none "x" "h1" true).2
          "t2" "m1" none "y" "h2" false).2 "m1" = true :=
  record_migration_duplicate_semantics [] "t1" "t2" "m1" none none "x" "y"
    "h1" "h2" true false (by decide)

/-! ### Migration operations (`crochet/migrations/operations.py`)

`MigrationContext` wraps a Neo4j driver.  The Python values stored in an
`Operation.details` dict are modelled by `Val`; `driverPresent` is
`self._driver is not None`, `runFails` models whether `session.run` /
`consume` raises, and `sent` logs every query actually issued to the driver
(cypher text and parameters), in order. -/

inductive Val where
  | str (s : String)
  | nat (n : Nat)
  | int (i : Int)
  | boolV (b : Bool)
  | none
  | list (xs : List Val)
  | dict (entries : List (String × Val))
  deriving Repr

structure Operation where
  op_type : String
  details : List (String × Val)
  deriving Repr

structure MContext where
  driverPresent : Bool := false
  runFails : Bool := false
  dryRun : Bool := false
  operations : List Operation := []
  batchId : Option String := Option.none
  sent : List (String × Val) := []
  deriving Repr

/-- `details.get("cypher")` filtered through Python truthiness (absent,
`None`-valued or empty-string cypher is falsy). -/
def detailsCypher (details : List (String × Val)) : Option String :=
  match details.lookup "cypher" with
  | some (.str c) => if c = "" then Option.none else some c
  | _ => Option.none

/-- `cypher = cypher_override or details.get("cypher")` followed by
`if cypher:`. -/
def effectiveCypher (ov : Option String) (details : List (String × Val)) :
    Option String :=
  match ov with
  | some c => if c ≠ "" then some c else detailsCypher details
  | Option.none => detailsCypher details

/-- `MigrationContext._record_and_run`: the Operation is appended to the
audit log *first*; with dry-run set or no driver bound nothing is sent;
otherwise the effective cypher (if truthy) is sent and a raising
`session.run`/`consume` propagates as an exception (after the send is
attempted). -/
def record_and_run (ctx : MContext) (opType : String)
    (details : List (String × Val)) (params : Option Val)
    (cypherOverride : Option String) :
    MContext × Except Unit (Option Unit) :=
  let ctx := { ctx with operations := ctx.operations ++ [⟨opType, details⟩] }
  if ctx.dryRun || !ctx.driverPresent then (ctx, .ok Option.none)
  else
    match effectiveCypher cypherOverride details with
    | some c =>
        let ctx := { ctx with sent := ctx.sent ++ [(c, params.getD (.dict []))] }
        if ctx.runFails then (ctx, .error ()) else (ctx, .ok (some ()))
    | Option.none => (ctx, .ok Option.none)

def add_unique_constraint (ctx : MContext) (label prop : String) :
    MContext × Except Unit (Option Unit) :=
  let cypher := "CREATE CONSTRAINT crochet_uniq_" ++ label ++ "_" ++ prop
    ++ " IF NOT EXISTS FOR (n:" ++ label ++ ") REQUIRE n." ++ prop ++ " IS UNIQUE"
  record_and_run ctx "add_unique_constraint"
    [("label", .str label), ("property", .str prop), ("cypher", .str cypher)]
    Option.none Option.none

def drop_unique_constraint (ctx : MContext) (label prop : String) :
    MContext × Except Unit (Option Unit) :=
  let cypher := "DROP CONSTRAINT crochet_uniq_" ++ label ++ "_" ++ prop ++ " IF EXISTS"
  record_and_run ctx "drop_unique_constraint"
    [("label", .str label), ("property", .str prop), ("cypher", .str cypher)]
    Option.none Option.none

def add_node_property_existence_constraint (ctx : MContext) (label prop : String) :
    MContext × Except Unit (Option Unit) :=
  let cypher := "CREATE CONSTRAINT crochet_exists_" ++ label ++ "_" ++ prop
    ++ " IF NOT EXISTS FOR (n:" ++ label ++ ") REQUIRE n." ++ prop ++ " IS NOT NULL"
  record_and_run ctx "add_existence_constraint"
    [("label", .str label), ("property", .str prop), ("cypher", .str cypher)]
    Option.none Option.none

def drop_node_property_existence_constraint (ctx : MContext) (label prop : String) :
    MContext × Except Unit (Option Unit) :=
  let cypher := "DROP CONSTRAINT crochet_exists_" ++ label ++ "_" ++ prop ++ " IF EXISTS"
  record_and_run ctx "drop_existence_constraint"
    [("label", .str label), ("property", .str prop), ("cypher", .str cypher)]
    Option.none Option.none

def add_index (ctx : MContext) (label prop : String) :
    MContext × Except Unit (Option Unit) :=
  let cypher := "CREATE INDEX crochet_idx_" ++ label ++ "_" ++ prop
    ++ " IF NOT EXISTS FOR (n:" ++ label ++ ") ON (n." ++ prop ++ ")"
  record_and_run ctx "add_index"
    [("label", .str label), ("property", .str prop), ("cypher", .str cypher)]
    Option.none Option.none

def drop_index (ctx : MContext) (label prop : String) :
    MContext × Except Unit (Option Unit) :=
  let cypher := "DROP INDEX crochet_idx_" ++ label ++ "_" ++ prop ++ " IF EXISTS"
  record_and_run ctx "drop_index"
    [("label", .str label), ("property", .str prop), ("cypher", .str cypher)]
    Option.none Option.none

def rename_label (ctx : MContext) (oldLabel newLabel : String) :
    MContext × Except Unit (Option Unit) :=
  let cypher := "MATCH (n:" ++ oldLabel ++ ") SET n:" ++ newLabel
    ++ " REMOVE n:" ++ oldLabel
  record_and_run ctx "rename_label"
    [("old_label", .str oldLabel), ("new_label", .str newLabel), ("cypher", .str cypher)]
    Option.none Option.none

def rename_relationship_type (ctx : MContext) (oldType newType : String) :
    MContext × Except Unit (Option Unit) :=
  let cypher := "MATCH (a)-[r:" ++ oldType ++ "]->(b) CREATE (a)-[r2:" ++ newType
    ++ "]->(b) SET r2 = properties(r) DELETE r"
  record_and_run ctx "rename_relationship_type"
    [("old_type", .str oldType), ("new_type", .str newType), ("cypher", .str cypher)]
    Option.none Option.none

def add_node_property (ctx : MContext) (label prop : String) (dflt : Option Val) :
    MContext × Except Unit (Option Unit) :=
  match dflt with
  | some d =>
      let cypher := "MATCH (n:" ++ label ++ ") SET n." ++ prop ++ " = $default"
      record_and_run ctx "add_node_property"
        [("label", .str label), ("property", .str prop), ("default", d),
         ("cypher", .str cypher)]
        (some (.dict [("default", d)])) Option.none
  | Option.none =>
      record_and_run ctx "add_node_property"
        [("label", .str label), ("property", .str prop), ("default", .none),
         ("cypher", .none)]
        Option.none Option.none

def remove_node_property (ctx : MContext) (label prop : String) :
    MContext × Except Unit (Option Unit) :=
  let cypher := "MATCH (n:" ++ label ++ ") REMOVE n." ++ prop
  record_and_run ctx "remove_node_property"
    [("label", .str label), ("property", .str prop), ("cypher", .str cypher)]
    Option.none Option.none

def rename_node_property (ctx : MContext) (label oldName newName : String) :
    MContext × Except Unit (Option Unit) :=
  let cypher := "MATCH (n:" ++ label ++ ") SET n." ++ newName ++ " = n." ++ oldName
    ++ " REMOVE n." ++ oldName
  record_and_run ctx "rename_node_property"
    [("label", .str label), ("old_name", .str oldName), ("new_name", .str newName),
     ("cypher", .str cypher)]
    Option.none Option.none

def run_cypher (ctx : MContext) (cypher : String) (params : Option Val) :
    MContext × Except Unit (Option Unit) :=
  record_and_run ctx "run_cypher"
    [("cypher", .str cypher), ("params", params.getD .none)]
    params (some cypher)

/-- `begin_batch`: `self._batch_id = batch_id or uuid.uuid4().hex[:12]`; the
generated id is the `fresh` parameter.  The operation is recorded like any
other. -/
def begin_batch (ctx : MContext) (bid : Option String) (fresh : String) :
    MContext × Except Unit (Option Unit) :=
  let b := match bid with
    | some s => if s ≠ "" then s else fresh
    | Option.none => fresh
  let ctx := { ctx with batchId := some b }
  record_and_run ctx "begin_batch" [("batch_id", .str b)] Option.none Option.none

/-- `self._batch_id or "untracked"` (an empty batch id is falsy too). -/
def batchOr (ctx : MContext) : String :=
  match ctx.batchId with
  | some s => if s ≠ "" then s else "untracked"
  | Option.none => "untracked"

def create_nodes (ctx : MContext) (label : String) (data : List Val) :
    MContext × Except Unit Nat :=
  if data.isEmpty then (ctx, .ok 0)
  else
    let batch := batchOr ctx
    let cypher := "UNWIND $rows AS row CREATE (n:" ++ label
      ++ ") SET n = row, n._crochet_batch = $batch"
    let res := record_and_run ctx "create_nodes"
      [("label", .str label), ("count", .nat data.length), ("cypher", .str cypher)]
      (some (.dict [("rows", .list data), ("batch", .str batch)])) (some cypher)
    (res.1, res.2.map (fun _ => data.length))

def create_relationships (ctx : MContext) (sourceLabel targetLabel relType : String)
    (data : List Val) (sourceKey targetKey propertiesKey : String) :
    MContext × Except Unit Nat :=
  if data.isEmpty then (ctx, .ok 0)
  else
    let batch := batchOr ctx
    let cypher := "UNWIND $rows AS row MATCH (a:" ++ sourceLabel
      ++ " \x7bid: row." ++ sourceKey ++ "\x7d) MATCH (b:" ++ targetLabel
      ++ " \x7bid: row." ++ targetKey ++ "\x7d) CREATE (a)-[r:" ++ relType
      ++ "]->(b) SET r = row." ++ propertiesKey ++ ", r._crochet_batch = $batch"
    let res := record_and_run ctx "create_relationships"
      [("source_label", .str sourceLabel), ("target_label", .str targetLabel),
       ("rel_type", .str relType), ("count", .nat data.length), ("cypher", .str cypher)]
      (some (.dict [("rows", .list data), ("batch", .str batch)])) (some cypher)
    (res.1, res.2.map (fun _ => data.length))

/-- `", ".join(f"{k}: row.{k}" for k in merge_keys)`. -/
def mergeClauseOf (mergeKeys : List String) : String :=
  String.intercalate ", " (mergeKeys.map (fun k => k ++ ": row." ++ k))

def upsert_nodes (ctx : MContext) (label : String) (data : List Val)
    (mergeKeys : List String) : MContext × Except Unit Nat :=
  if data.isEmpty || mergeKeys.isEmpty then (ctx, .ok 0)
  else
    let batch := batchOr ctx
    let cypher := "UNWIND $rows AS row MERGE (n:" ++ label ++ " \x7b"
      ++ mergeClauseOf mergeKeys ++ "\x7d) SET n += row, n._crochet_batch = $batch"
    let res := record_and_run ctx "upsert_nodes"
      [("label", .str label), ("count", .nat data.length),
       ("merge_keys", .list (mergeKeys.map .str)), ("cypher", .str cypher)]
      (some (.dict [("rows", .list data), ("batch", .str batch)])) (some cypher)
    (res.1, res.2.map (fun _ => data.length))

def upsert_relationships (ctx : MContext) (sourceLabel targetLabel relType : String)
    (data : List Val) (sourceKey targetKey propertiesKey : String) :
    MContext × Except Unit Nat :=
  if data.isEmpty then (ctx, .ok 0)
  else
    let batch := batchOr ctx
    let cypher := "UNWIND $rows AS row MATCH (a:" ++ sourceLabel
      ++ " \x7bid: row." ++ sourceKey ++ "\x7d) MATCH (b:" ++ targetLabel
      ++ " \x7bid: row." ++ targetKey ++ "\x7d) MERGE (a)-[r:" ++ relType
      ++ "]->(b) SET r += row." ++ propertiesKey ++ ", r._crochet_batch = $batch"
    let res := record_and_run ctx "upsert_relationships"
      [("source_label", .str sourceLabel), ("target_label", .str targetLabel),
       ("rel_type", .str relType), ("count", .nat data.length), ("cypher", .str cypher)]
      (some (.dict [("rows", .list data), ("batch", .str batch)])) (some cypher)
    (res.1, res.2.map (fun _ => data.length))

/-- The client-chunked `for i in range(0, len(data), chunk_size)` loops, one
`_record_and_run` per chunk (an execution failure aborts the loop after the
failing chunk's Operation was recorded).  `mkDetails` builds the per-chunk
details dict from the chunk and its index. -/
def chunkRun (opType : String) (mkDetails : List Val → Nat → List (String × Val))
    (mkParams : List Val → Val) (cypher : String) :
    List (List Val) → Nat → MContext → MContext × Except Unit Unit
  | [], _, ctx => (ctx, .ok ())
  | ch :: rest, idx, ctx =>
      let step := record_and_run ctx opType (mkDetails ch idx)
        (some (mkParams ch)) (some cypher)
      match step.2 with
      | .error e => (step.1, .error e)
      | .ok _ => chunkRun opType mkDetails mkParams cypher rest (idx + 1) step.1

def bulk_create_nodes (ctx : MContext) (label : String) (data : List Val)
    (chunkSize : Int) (useCallInTransactions : Bool) : MContext × Except Unit Nat :=
  if data.isEmpty then (ctx, .ok 0)
  else
    let batch := batchOr ctx
    if useCallInTransactions then
      let cypher := "UNWIND $rows AS row CALL \x7b WITH row CREATE (n:" ++ label
        ++ ") SET n = row, n._crochet_batch = $batch \x7d IN TRANSACTIONS OF "
        ++ toString chunkSize ++ " ROWS"
      let res := record_and_run ctx "bulk_create_nodes"
        [("label", .str label), ("count", .nat data.length),
         ("chunk_size", .int chunkSize), ("method", .str "CALL_IN_TRANSACTIONS"),
         ("cypher", .str cypher)]
        (some (.dict [("rows", .list data), ("batch", .str batch)])) (some cypher)
      (res.1, res.2.map (fun _ => data.length))
    else if chunkSize = 0 then
      (ctx, .error ())  -- range(0, n, 0) raises ValueError before any recording
    else
      -- range(0, len(data), chunk_size) is empty for a negative step: the
      -- loop then records nothing and the call still returns len(data)
      let chunks := if chunkSize < 0 then [] else chunkList chunkSize.toNat data
      let cypher := "UNWIND $rows AS row CREATE (n:" ++ label
        ++ ") SET n = row, n._crochet_batch = $batch"
      let res := chunkRun "bulk_create_nodes"
        (fun ch idx =>
          [("label", .str label), ("count", .nat ch.length),
           ("chunk_index", .nat idx), ("chunk_size", .int chunkSize),
           ("method", .str "client_chunked"), ("cypher", .str cypher)])
        (fun ch => .dict [("rows", .list ch), ("batch", .str batch)])
        cypher chunks 0 ctx
      (res.1, res.2.map (fun _ => data.length))

def bulk_upsert_nodes (ctx : MContext) (label : String) (data : List Val)
    (mergeKeys : List String) (chunkSize : Int) (useCallInTransactions : Bool) :
    MContext × Except Unit Nat :=
  if data.isEmpty || mergeKeys.isEmpty then (ctx, .ok 0)
  else
    let batch := batchOr ctx
    let mc := mergeClauseOf mergeKeys
    if useCallInTransactions then
      let cypher := "UNWIND $rows AS row CALL \x7b WITH row MERGE (n:" ++ label
        ++ " \x7b" ++ mc ++ "\x7d) SET n += row, n._crochet_batch = $batch \x7d"
        ++ " IN TRANSACTIONS OF " ++ toString chunkSize ++ " ROWS"
      let res := record_and_run ctx "bulk_upsert_nodes"
        [("label", .str label), ("count", .nat data.length),
         ("merge_keys", .list (mergeKeys.map .str)), ("chunk_size", .int chunkSize),
         ("method", .str "CALL_IN_TRANSACTIONS"), ("cypher", .str cypher)]
        (some (.dict [("rows", .list data), ("batch", .str batch)])) (some cypher)
      (res.1, res.2.map (fun _ => data.length))
    else if chunkSize = 0 then
      (ctx, .error ())
    else
      let chunks := if chunkSize < 0 then [] else chunkList chunkSize.toNat data
      let cypher := "UNWIND $rows AS row MERGE (n:" ++ label ++ " \x7b" ++ mc
        ++ "\x7d) SET n += row, n._crochet_batch = $batch"
      let res := chunkRun "bulk_upsert_nodes"
        (fun ch idx =>
          [("label", .str label), ("count", .nat ch.length),
           ("merge_keys", .list (mergeKeys.map .str)), ("chunk_index", .nat idx),
           ("chunk_size", .int chunkSize), ("method", .str "client_chunked"),
           ("cypher", .str cypher)])
        (fun ch => .dict [("rows", .list ch), ("batch", .str batch)])
        cypher chunks 0 ctx
      (res.1, res.2.map (fun _ => data.length))

def bulk_create_relationships (ctx : MContext)
    (sourceLabel targetLabel relType : String) (data : List Val) (chunkSize : Int)
    (sourceKey targetKey propertiesKey : String) (useCallInTransactions : Bool) :
    MContext × Except Unit Nat :=
  if data.isEmpty then (ctx, .ok 0)
  else
    let batch := batchOr ctx
    if useCallInTransactions then
      let cypher := "UNWIND $rows AS row CALL \x7b WITH row MATCH (a:" ++ sourceLabel
        ++ " \x7bid: row." ++ sourceKey ++ "\x7d) MATCH (b:" ++ targetLabel
        ++ " \x7bid: row." ++ targetKey ++ "\x7d) CREATE (a)-[r:" ++ relType
        ++ "]->(b) SET r = row." ++ propertiesKey
        ++ ", r._crochet_batch = $batch \x7d IN TRANSACTIONS OF "
        ++ toString chunkSize ++ " ROWS"
      let res := record_and_run ctx "bulk_create_relationships"
        [("source_label", .str sourceLabel), ("target_label", .str targetLabel),
         ("rel_type", .str relType), ("count", .nat data.length),
         ("chunk_size", .int chunkSize), ("method", .str "CALL_IN_TRANSACTIONS"),
         ("cypher", .str cypher)]
        (some (.dict [("rows", .list data), ("batch", .str batch)])) (some cypher)
      (res.1, res.2.map (fun _ => data.length))
    else if chunkSize = 0 then
      (ctx, .error ())
    else
      let chunks := if chunkSize < 0 then [] else chunkList chunkSize.toNat data
      let cypher := "UNWIND $rows AS row MATCH (a:" ++ sourceLabel
        ++ " \x7bid: row." ++ sourceKey ++ "\x7d) MATCH (b:" ++ targetLabel
        ++ " \x7bid: row." ++ targetKey ++ "\x7d) CREATE (a)-[r:" ++ relType
        ++ "]->(b) SET r = row." ++ propertiesKey ++ ", r._crochet_batch = $batch"
      let res := chunkRun "bulk_create_relationships"
        (fun ch idx =>
          [("source_label", .str sourceLabel), ("target_label", .str targetLabel),
           ("rel_type", .str relType), ("count", .nat ch.length),
           ("chunk_index", .nat idx), ("chunk_size", .int chunkSize),
           ("method", .str "client_chunked"), ("cypher", .str cypher)])
        (fun ch => .dict [("rows", .list ch), ("batch", .str batch)])
        cypher chunks 0 ctx
      (res.1, res.2.map (fun _ => data.length))

def delete_nodes_by_batch (ctx : MContext) (label batchId : String) :
    MContext × Except Unit (Option Unit) :=
  let cypher := "MATCH (n:" ++ label
    ++ " \x7b_crochet_batch: $batch\x7d) DETACH DELETE n"
  record_and_run ctx "delete_nodes_by_batch"
    [("label", .str label), ("batch_id", .str batchId), ("cypher", .str cypher)]
    (some (.dict [("batch", .str batchId)])) (some cypher)

def delete_relationships_by_batch (ctx : MContext) (relType batchId : String) :
    MContext × Except Unit (Option Unit) :=
  let cypher := "MATCH ()-[r:" ++ relType
    ++ " \x7b_crochet_batch: $batch\x7d]-() DELETE r"
  record_and_run ctx "delete_relationships_by_batch"
    [("rel_type", .str relType), ("batch_id", .str batchId), ("cypher", .str cypher)]
    (some (.dict [("batch", .str batchId)])) (some cypher)

/-- One call to any of the `MigrationContext` operation methods, with its
arguments. -/
inductive OpCall where
  | add_unique_constraint (label prop : String)
  | drop_unique_constraint (label prop : String)
  | add_node_property_existence_constraint (label prop : String)
  | drop_node_property_existence_constraint (label prop : String)
  | add_index (label prop : String)
  | drop_index (label prop : String)
  | rename_label (oldLabel newLabel : String)
  | rename_relationship_type (oldType newType : String)
  | add_node_property (label prop : String) (dflt : Option Val)
  | remove_node_property (label prop : String)
  | rename_node_property (label oldName newName : String)
  | run_cypher (cypher : String) (params : Option Val)
  | begin_batch (bid : Option String) (fresh : String)
  | create_nodes (label : String) (data : List Val)
  | create_relationships (sl tl rt : String) (data : List Val) (sk tk pk : String)
  | upsert_nodes (label : String) (data : List Val) (mks : List String)
  | upsert_relationships (sl tl rt : String) (data : List Val) (sk tk pk : String)
  | bulk_create_nodes (label : String) (data : List Val) (csize : Int) (useCall : Bool)
  | bulk_upsert_nodes (label : String) (data : List Val) (mks : List String)
      (csize : Int) (useCall : Bool)
  | bulk_create_relationships (sl tl rt : String) (data : List Val) (csize : Int)
      (sk tk pk : String) (useCall : Bool)
  | delete_nodes_by_batch (label bid : String)
  | delete_relationships_by_batch (rt bid : String)

/-- Execute one operation call against the context. -/
def dispatchOp (c : OpCall) (ctx : MContext) : MContext :=
  match c with
  | .add_unique_constraint l p => (add_unique_constraint ctx l p).1
  | .drop_unique_constraint l p => (drop_unique_constraint ctx l p).1
  | .add_node_property_existence_constraint l p =>
      (add_node_property_existence_constraint ctx l p).1
  | .drop_node_property_existence_constraint l p =>
      (drop_node_property_existence_constraint ctx l p).1
  | .add_index l p => (add_index ctx l p).1
  | .drop_index l p => (drop_index ctx l p).1
  | .rename_label a b => (rename_label ctx a b).1
  | .rename_relationship_type a b => (rename_relationship_type ctx a b).1
  | .add_node_property l p d => (add_node_property ctx l p d).1
  | .remove_node_property l p => (remove_node_property ctx l p).1
  | .rename_node_property l a b => (rename_node_property ctx l a b).1
  | .run_cypher c p => (run_cypher ctx c p).1
  | .begin_batch b f => (begin_batch ctx b f).1
  | .create_nodes l d => (create_nodes ctx l d).1
  | .create_relationships sl tl rt d sk tk pk =>
      (create_relationships ctx sl tl rt d sk tk pk).1
  | .upsert_nodes l d m => (upsert_nodes ctx l d m).1
  | .upsert_relationships sl tl rt d sk tk pk =>
      (upsert_relationships ctx sl tl rt d sk tk pk).1
  | .bulk_create_nodes l d cs u => (bulk_create_nodes ctx l d cs u).1
  | .bulk_upsert_nodes l d m cs u => (bulk_upsert_nodes ctx l d m cs u).1
  | .bulk_create_relationships sl tl rt d cs sk tk pk u =>
      (bulk_create_relationships ctx sl tl rt d cs sk tk pk u).1
  | .delete_nodes_by_batch l b => (delete_nodes_by_batch ctx l b).1
  | .delete_relationships_by_batch r b => (delete_relationships_by_batch ctx r b).1

/-- The inputs on which a call records anything at all: the bulk/data
operations return a count without recording on empty data (or empty merge
keys), and in client-chunked mode on a zero chunk size (`range` raises) or a
negative chunk size (`range` is empty, so the loop never runs yet
`len(data)` is returned). -/
def wfCall : OpCall → Prop
  | .create_nodes _ data => data.isEmpty = false
  | .create_relationships _ _ _ data _ _ _ => data.isEmpty = false
  | .upsert_nodes _ data mks => data.isEmpty = false ∧ mks.isEmpty = false
  | .upsert_relationships _ _ _ data _ _ _ => data.isEmpty = false
  | .bulk_create_nodes _ data csize useCall =>
      data.isEmpty = false ∧ (useCall = false → 0 < csize)
  | .bulk_upsert_nodes _ data mks csize useCall =>
      data.isEmpty = false ∧ mks.isEmpty = false ∧ (useCall = false → 0 < csize)
  | .bulk_create_relationships _ _ _ data csize _ _ _ useCall =>
      data.isEmpty = false ∧ (useCall = false → 0 < csize)
  | _ => True

theorem record_and_run_ops (ctx : MContext) (opType : String)
    (details : List (String × Val)) (params : Option Val) (ov : Option String) :
    (record_and_run ctx opType details params ov).1.operations
      = ctx.operations ++ [⟨opType, details⟩] := by
  by_cases h : (ctx.dryRun || !ctx.driverPresent) = true
  · simp [record_and_run, h]
  · cases hec : effectiveCypher ov details with
    | none => simp [record_and_run, h, hec]
    | some c => by_cases hf : ctx.runFails <;> simp [record_and_run, h, hec, hf]

theorem record_and_run_sent (ctx : MContext) (opType : String)
    (details : List (String × Val)) (params : Option Val) (ov : Option String)
    (h : (ctx.dryRun || !ctx.driverPresent) = true) :
    (record_and_run ctx opType details params ov).1.sent = ctx.sent := by
  simp [record_and_run, h]

theorem record_and_run_flags (ctx : MContext) (opType : String)
    (details : List (String × Val)) (params : Option Val) (ov : Option String) :
    (record_and_run ctx opType details params ov).1.dryRun = ctx.dryRun
    ∧ (record_and_run ctx opType details params ov).1.driverPresent
        = ctx.driverPresent := by
  by_cases h : (ctx.dryRun || !ctx.driverPresent) = true
  · simp [record_and_run, h]
  · cases hec : effectiveCypher ov details with
    | none => simp [record_and_run, h, hec]
    | some c => by_cases hf : ctx.runFails <;> simp [record_and_run, h, hec, hf]

/-- Audit/sent behaviour of one `_record_and_run` call, packaged. -/
theorem record_spec (ctx : MContext) (opType : String)
    (details : List (String × Val)) (params : Option Val) (ov : Option String) :
    (∃ new, new ≠ []
      ∧ (record_and_run ctx opType details params ov).1.operations
          = ctx.operations ++ new)
    ∧ ((ctx.dryRun || !ctx.driverPresent) = true →
        (record_and_run ctx opType details params ov).1.sent = ctx.sent) :=
  ⟨⟨[⟨opType, details⟩], by simp, record_and_run_ops _ _ _ _ _⟩,
   fun h => record_and_run_sent _ _ _ _ _ h⟩

theorem chunkRun_ops (opType : String)
    (mkDetails : List Val → Nat → List (String × Val)) (mkParams : List Val → Val)
    (cypher : String) :
    ∀ (chunks : List (List Val)) (idx : Nat) (ctx : MContext),
      ∃ new, (chunks ≠ [] → new ≠ [])
        ∧ (chunkRun opType mkDetails mkParams cypher chunks idx ctx).1.operations
            = ctx.operations ++ new := by
  intro chunks
  induction chunks with
  | nil =>
      intro idx ctx
      exact ⟨[], fun h => absurd rfl h, by simp [chunkRun]⟩
  | cons ch rest ih =>
      intro idx ctx
      rcases hstep : record_and_run ctx opType (mkDetails ch idx)
          (some (mkParams ch)) (some cypher) with ⟨ctx', r⟩
      have hops : ctx'.operations = ctx.operations ++ [⟨opType, mkDetails ch idx⟩] := by
        have h := record_and_run_ops ctx opType (mkDetails ch idx)
          (some (mkParams ch)) (some cypher)
        rw [hstep] at h
        exact h
      cases r with
      | error e =>
          exact ⟨[⟨opType, mkDetails ch idx⟩], fun _ => by simp,
            by simp [chunkRun, hstep, hops]⟩
      | ok v =>
          obtain ⟨new, _, hrec⟩ := ih (idx + 1) ctx'
          refine ⟨⟨opType, mkDetails ch idx⟩ :: new, fun _ => by simp, ?_⟩
          simp [chunkRun, hstep, hrec, hops]

theorem chunkRun_sent (opType : String)
    (mkDetails : List Val → Nat → List (String × Val)) (mkParams : List Val → Val)
    (cypher : String) :
    ∀ (chunks : List (List Val)) (idx : Nat) (ctx : MContext),
      (ctx.dryRun || !ctx.driverPresent) = true →
      (chunkRun opType mkDetails mkParams cypher chunks idx ctx).1.sent = ctx.sent := by
  intro chunks
  induction chunks with
  | nil => intro idx ctx _; simp [chunkRun]
  | cons ch rest ih =>
      intro idx ctx h
      rcases hstep : record_and_run ctx opType (mkDetails ch idx)
          (some (mkParams ch)) (some cypher) with ⟨ctx', r⟩
      have hsent : ctx'.sent = ctx.sent := by
        have hx := record_and_run_sent ctx opType (mkDetails ch idx)
          (some (mkParams ch)) (some cypher) h
        rw [hstep] at hx
        exact hx
      have hflags := record_and_run_flags ctx opType (mkDetails ch idx)
        (some (mkParams ch)) (some cypher)
      rw [hstep] at hflags
      have h' : (ctx'.dryRun || !ctx'.driverPresent) = true := by
        rw [hflags.1, hflags.2]
        exact h
      cases r with
      | error e => simp [chunkRun, hstep, hsent]
      | ok v => simp [chunkRun, hstep, ih (idx + 1) ctx' h', hsent]

/-- Audit/sent behaviour of a whole client-chunked loop, packaged. -/
theorem chunk_spec (opType : String)
    (mkDetails : List Val → Nat → List (String × Val)) (mkParams : List Val → Val)
    (cypher : String) (chunks : List (List Val)) (idx : Nat) (ctx : MContext)
    (hch : chunks ≠ []) :
    (∃ new, new ≠ []
      ∧ (chunkRun opType mkDetails mkParams cypher chunks idx ctx).1.operations
          = ctx.operations ++ new)
    ∧ ((ctx.dryRun || !ctx.driverPresent) = true →
        (chunkRun opType mkDetails mkParams cypher chunks idx ctx).1.sent
          = ctx.sent) := by
  obtain ⟨new, hne, hops⟩ := chunkRun_ops opType mkDetails mkParams cypher chunks idx ctx
  exact ⟨⟨new, hne hch, hops⟩,
    fun h => chunkRun_sent opType mkDetails mkParams cypher chunks idx ctx h⟩

theorem chunkList_ne_nil {α : Type} (csize : Nat) (l : List α)
    (h : l.isEmpty = false) : chunkList csize l ≠ [] := by
  cases l with
  | nil => simp at h
  | cons x xs => simp [chunkList, chunkGo]

/-- C10 (amended): every operation call appends its Operation entries to the
audit log (before any execution, hence also on a raising run or with no
driver bound), and sends nothing to the database when dry-run is set or no
driver is bound — except that the bulk/data operations record nothing on
empty data / empty merge keys / zero or negative client-side chunk size
(`wfCall`). -/
theorem operations_audit_log_amended :
    ∀ (c : OpCall) (ctx : MContext), wfCall c →
      (∃ new, new ≠ []
        ∧ (dispatchOp c ctx).operations = ctx.operations ++ new)
      ∧ ((ctx.dryRun || !ctx.driverPresent) = true →
          (dispatchOp c ctx).sent = ctx.sent) := by
  intro c ctx hwf
  cases c with
  | add_unique_constraint l p =>
      simp only [dispatchOp, add_unique_constraint]
      exact record_spec _ _ _ _ _
  | drop_unique_constraint l p =>
      simp only [dispatchOp, drop_unique_constraint]
      exact record_spec _ _ _ _ _
  | add_node_property_existence_constraint l p =>
      simp only [dispatchOp, add_node_property_existence_constraint]
      exact record_spec _ _ _ _ _
  | drop_node_property_existence_constraint l p =>
      simp only [dispatchOp, drop_node_property_existence_constraint]
      exact record_spec _ _ _ _ _
  | add_index l p =>
      simp only [dispatchOp, add_index]
      exact record_spec _ _ _ _ _
  | drop_index l p =>
      simp only [dispatchOp, drop_index]
      exact record_spec _ _ _ _ _
  | rename_label a b =>
      simp only [dispatchOp, rename_label]
      exact record_spec _ _ _ _ _
  | rename_relationship_type a b =>
      simp only [dispatchOp, rename_relationship_type]
      exact record_spec _ _ _ _ _
  | add_node_property l p d =>
      cases d <;>
        (simp only [dispatchOp, add_node_property]; exact record_spec _ _ _ _ _)
  | remove_node_property l p =>
      simp only [dispatchOp, remove_node_property]
      exact record_spec _ _ _ _ _
  | rename_node_property l a b =>
      simp only [dispatchOp, rename_node_property]
      exact record_spec _ _ _ _ _
  | run_cypher cy p =>
      simp only [dispatchOp, run_cypher]
      exact record_spec _ _ _ _ _
  | begin_batch b f =>
      simp only [dispatchOp, begin_batch]
      exact record_spec _ _ _ _ _
  | create_nodes l data =>
      have h1 : data.isEmpty = false := hwf
      simp only [dispatchOp, create_nodes, h1, Bool.false_eq_true, if_false]
      exact record_spec _ _ _ _ _
  | create_relationships sl tl rt data sk tk pk =>
      have h1 : data.isEmpty = false := hwf
      simp only [dispatchOp, create_relationships, h1, Bool.false_eq_true, if_false]
      exact record_spec _ _ _ _ _
  | upsert_nodes l data mks =>
      obtain ⟨h1, h2⟩ := hwf
      simp only [dispatchOp, upsert_nodes, h1, h2, Bool.or_self,
        Bool.false_eq_true, if_false]
      exact record_spec _ _ _ _ _
  | upsert_relationships sl tl rt data sk tk pk =>
      have h1 : data.isEmpty = false := hwf
      simp only [dispatchOp, upsert_relationships, h1, Bool.false_eq_true, if_false]
      exact record_spec _ _ _ _ _
  | bulk_create_nodes l data csize useCall =>
      obtain ⟨h1, h2⟩ := hwf
      cases useCall with
      | true =>
          simp only [dispatchOp, bulk_create_nodes, h1, Bool.false_eq_true,
            if_false, if_true]
          exact record_spec _ _ _ _ _
      | false =>
          have hpos := h2 rfl
          have hcs : ¬(csize = 0) := ne_of_gt hpos
          have hnl : ¬(csize < 0) := not_lt.mpr (le_of_lt hpos)
          simp only [dispatchOp, bulk_create_nodes, h1, Bool.false_eq_true,
            if_false, hcs, hnl]
          exact chunk_spec _ _ _ _ _ _ _ (chunkList_ne_nil _ _ h1)
  | bulk_upsert_nodes l data mks csize useCall =>
      obtain ⟨h1, h2, h3⟩ := hwf
      cases useCall with
      | true =>
          simp only [dispatchOp, bulk_upsert_nodes, h1, h2, Bool.or_self,
            Bool.false_eq_true, if_false, if_true]
          exact record_spec _ _ _ _ _
      | false =>
          have hpos := h3 rfl
          have hcs : ¬(csize = 0) := ne_of_gt hpos
          have hnl : ¬(csize < 0) := not_lt.mpr (le_of_lt hpos)
          simp only [dispatchOp, bulk_upsert_nodes, h1, h2, Bool.or_self,
            Bool.false_eq_true, if_false, hcs, hnl]
          exact chunk_spec _ _ _ _ _ _ _ (chunkList_ne_nil _ _ h1)
  | bulk_create_relationships sl tl rt data csize sk tk pk useCall =>
      obtain ⟨h1, h2⟩ := hwf
      cases useCall with
      | true =>
          simp only [dispatchOp, bulk_create_relationships, h1,
            Bool.false_eq_true, if_false, if_true]
          exact record_spec _ _ _ _ _
      | false =>
          have hpos := h2 rfl
          have hcs : ¬(csize = 0) := ne_of_gt hpos
          have hnl : ¬(csize < 0) := not_lt.mpr (le_of_lt hpos)
          simp only [dispatchOp, bulk_create_relationships, h1,
            Bool.false_eq_true, if_false, hcs, hnl]
          exact chunk_spec _ _ _ _ _ _ _ (chunkList_ne_nil _ _ h1)
  | delete_nodes_by_batch l b =>
      simp only [dispatchOp, delete_nodes_by_batch]
      exact record_spec _ _ _ _ _
  | delete_relationships_by_batch r b =>
      simp only [dispatchOp, delete_relationships_by_batch]
      exact record_spec _ _ _ _ _

/-- C10 counterexample: `create_nodes` with an empty row list returns 0
without appending anything to the audit log (`if not data: return 0` comes
before `_record_and_run`), and a client-chunked bulk create with a negative
chunk size runs an empty `range(0, len(data), chunk_size)` loop — nothing is
recorded yet `len(data)` is returned.  So "every operation call, for every
input, appends an Operation entry" fails. -/
theorem data_operations_silently_record_nothing :
    ((create_nodes {} "Person" []).1.operations = []
      ∧ (create_nodes {} "Person" []).2 = .ok 0)
    ∧ ((bulk_create_nodes {} "Person" [Val.dict []] (-2) false).1.operations = []
      ∧ (bulk_create_nodes {} "Person" [Val.dict []] (-2) false).2 = .ok 1) :=
  ⟨⟨rfl, rfl⟩, ⟨rfl, rfl⟩⟩

/-- Witness for C10 (amended) at a concrete call: a unique-constraint add on
a dry-run context records exactly one Operation and sends nothing. -/
theorem operations_audit_log_amended_witness :
    (∃ new, new ≠ []
      ∧ (dispatchOp (.add_unique_constraint "Person" "name")
          { dryRun := true }).operations
        = ({ dryRun := true } : MContext).operations ++ new)
    ∧ ((({ dryRun := true } : MContext).dryRun
          || !({ dryRun := true } : MContext).driverPresent) = true →
        (dispatchOp (.add_unique_constraint "Person" "name")
            { dryRun := true }).sent
          = ({ dryRun := true } : MContext).sent) :=
  operations_audit_log_amended (.add_unique_constraint "Person" "name")
    { dryRun := true } trivial

end Crochet
